import Mathlib

/-! # The network polling loop of the FreeRTOS uIP example

A shallow embedding of the body of the `while(1)` loop of `vuIP_Task`
(`examples/freertos_uip/main.c`).  The protocol engine, the link-layer device
and the tick counter are collaborators of the loop: they are abstracted as an
environment of state transformers over the global state, and the loop is an
executable function that threads the state through them and records every call
it makes, in order.
-/

namespace FreertosUip

/-! ## Data model -/

/-- The two `struct _timeout` locals of `vuIP_Task`. -/
inductive TimerId where
  | periodic_timer
  | arp_timer
deriving DecidableEq, Repr

/-- One call made by the loop body.  A call that reports a result to the loop
carries the value the loop observes when the call returns: the return value of
`eth_tapdev_read` and of `timer_timeout_reached`, and, for the stack entry
points whose output the loop tests, the value of the global `uip_len` on
return. -/
inductive Call where
  | eth_tapdev_read (ret : Int)
  | uip_arp_ipin
  | uip_input (len : Nat)
  | uip_arp_out
  | eth_tapdev_send
  | uip_arp_arpin (len : Nat)
  | timer_timeout_reached (t : TimerId) (ret : Bool)
  | timer_reset_timeout (t : TimerId)
  | uip_periodic (i : Nat) (len : Nat)
  | uip_udp_periodic (i : Nat) (len : Nat)
  | uip_arp_timer
deriving DecidableEq, Repr

/-- Modelled from the spec: `struct _timeout` of timer.h, which is not among the
sources: a start instant and a duration, both in ticks. -/
structure _timeout where
  start : Nat
  count : Nat
deriving DecidableEq, Repr

/-- Modelled from the spec: `timer_start_timeout` of timer.h, which is not among
the sources: captures the current tick count and stores the duration. -/
def timer_start_timeout (now : Nat) (count : Nat) : _timeout :=
  { start := now, count := count }

/-- Modelled from the spec: `timer_timeout_reached` of timer.h, which is not
among the sources: true exactly when current time - start >= duration. -/
def timer_timeout_reached (t : _timeout) (now : Nat) : Bool :=
  decide ((t.count : Int) ≤ (now : Int) - (t.start : Int))

/-- Modelled from the spec: `timer_reset_timeout` of timer.h, which is not among
the sources: rebinds start to the current time, the duration is kept. -/
def timer_reset_timeout (t : _timeout) (now : Nat) : _timeout :=
  { t with start := now }

/-- The global state the loop shares with its collaborators: `uip_len`, the
output-length global that the loop reads and writes itself, and everything else
(`uip_buf`, the connection tables of the stack, the device, the tick counter),
which the loop only reaches through the environment. -/
structure Globals (ε : Type) where
  uip_len : Nat
  ext : ε

/-- Compile-time configuration used by the loop.  main.c does not define any of
these constants, so they are parameters: the slot counts, the datagram switch,
the two Ethernet type tags and the byte-order macro applied to them, the width
of the unsigned type of `uip_len` (uIP declares it `u16_t`), and the port
selected in `main`. -/
structure Config where
  UIP_CONNS : Nat
  UIP_UDP : Bool
  UIP_UDP_CONNS : Nat
  UIP_ETHTYPE_IP : Nat
  UIP_ETHTYPE_ARP : Nat
  htons : Nat → Nat
  uip_len_bits : Nat
  eth_port : Nat

/-- The collaborators of the loop.  Every function may read and write the whole
global state, `uip_len` included; `BUF_type` is the read of `BUF->type` and
`timer_get_tick` the read of the tick counter. -/
structure Env (ε : Type) where
  eth_tapdev_read : Nat → Globals ε → Int × Globals ε
  eth_tapdev_send : Nat → Globals ε → Globals ε
  BUF_type : Globals ε → Nat
  uip_arp_ipin : Globals ε → Globals ε
  uip_input : Globals ε → Globals ε
  uip_arp_out : Globals ε → Globals ε
  uip_arp_arpin : Globals ε → Globals ε
  uip_periodic : Nat → Globals ε → Globals ε
  uip_udp_periodic : Nat → Globals ε → Globals ε
  uip_arp_timer : Globals ε → Globals ε
  timer_get_tick : Globals ε → Nat

/-- What `vuIP_Task` owns between two iterations: the globals and its two
timeout locals.  The timeouts are locals of the task, so no collaborator can
reach them. -/
structure TaskState (ε : Type) where
  g : Globals ε
  periodic_timer : _timeout
  arp_timer : _timeout

/-! ## The loop body -/

/-- The assignment `uip_len = eth_tapdev_read(eth_port)`: C converts the value
returned by the read to the unsigned type of `uip_len` by reducing it modulo
`2 ^ width`. -/
def store_uip_len (cfg : Config) (r : Int) : Nat :=
  (r % (2 : Int) ^ cfg.uip_len_bits).toNat

/-- The block `if(uip_len > 0) { uip_arp_out(); eth_tapdev_send(eth_port); }`,
which follows `uip_input`, `uip_periodic(i)` and `uip_udp_periodic(i)`. -/
def arp_out_and_send {ε : Type} (cfg : Config) (env : Env ε) (g : Globals ε) :
    List Call × Globals ε :=
  if 0 < g.uip_len then
    ([Call.uip_arp_out, Call.eth_tapdev_send],
      env.eth_tapdev_send cfg.eth_port (env.uip_arp_out g))
  else
    ([], g)

/-- The block `if(uip_len > 0) { eth_tapdev_send(eth_port); }`, which follows
`uip_arp_arpin`. -/
def send_only {ε : Type} (cfg : Config) (env : Env ε) (g : Globals ε) :
    List Call × Globals ε :=
  if 0 < g.uip_len then
    ([Call.eth_tapdev_send], env.eth_tapdev_send cfg.eth_port g)
  else
    ([], g)

/-- The loop `for(i = 0; i < UIP_CONNS; i++)`, entered at index `i` with `n`
iterations left (`n = UIP_CONNS - i`).  The counter never exceeds the slot
count, an `int` constant, so the `portBASE_TYPE` counter does not overflow and
is taken as a natural number. -/
def conn_sweep {ε : Type} (cfg : Config) (env : Env ε) :
    Nat → Nat → Globals ε → List Call × Globals ε
  | 0, _, g => ([], g)
  | n + 1, i, g =>
    let g1 := env.uip_periodic i g
    let out := arp_out_and_send cfg env g1
    let rest := conn_sweep cfg env n (i + 1) out.2
    (Call.uip_periodic i g1.uip_len :: (out.1 ++ rest.1), rest.2)

/-- The loop `for(i = 0; i < UIP_UDP_CONNS; i++)`, entered at index `i` with
`n` iterations left. -/
def udp_sweep {ε : Type} (cfg : Config) (env : Env ε) :
    Nat → Nat → Globals ε → List Call × Globals ε
  | 0, _, g => ([], g)
  | n + 1, i, g =>
    let g1 := env.uip_udp_periodic i g
    let out := arp_out_and_send cfg env g1
    let rest := udp_sweep cfg env n (i + 1) out.2
    (Call.uip_udp_periodic i g1.uip_len :: (out.1 ++ rest.1), rest.2)

/-- Both sweeps of the periodic branch: the connection slots, then, under
`#if UIP_UDP`, the datagram slots. -/
def sweeps {ε : Type} (cfg : Config) (env : Env ε) (g : Globals ε) :
    List Call × Globals ε :=
  let c := conn_sweep cfg env cfg.UIP_CONNS 0 g
  if cfg.UIP_UDP then
    let u := udp_sweep cfg env cfg.UIP_UDP_CONNS 0 c.2
    (c.1 ++ u.1, u.2)
  else
    c

/-- The block `if(timer_timeout_reached(&arp_timer)) { ... }` that ends the
periodic branch.  Returns the calls, the globals and the aging timeout. -/
def arp_aging {ε : Type} (env : Env ε) (g : Globals ε) (arp_timer : _timeout) :
    List Call × Globals ε × _timeout :=
  if timer_timeout_reached arp_timer (env.timer_get_tick g) then
    ([Call.timer_timeout_reached TimerId.arp_timer true,
      Call.timer_reset_timeout TimerId.arp_timer,
      Call.uip_arp_timer],
     env.uip_arp_timer g,
     timer_reset_timeout arp_timer (env.timer_get_tick g))
  else
    ([Call.timer_timeout_reached TimerId.arp_timer false], g, arp_timer)

/-- The branch `if(uip_len > 0) { ... }`: classification of the frame by
`BUF->type` and dispatch to the stack. -/
def frame_branch {ε : Type} (cfg : Config) (env : Env ε) (g : Globals ε) :
    List Call × Globals ε :=
  if env.BUF_type g = cfg.htons cfg.UIP_ETHTYPE_IP then
    let g2 := env.uip_input (env.uip_arp_ipin g)
    let out := arp_out_and_send cfg env g2
    (Call.uip_arp_ipin :: Call.uip_input g2.uip_len :: out.1, out.2)
  else if env.BUF_type g = cfg.htons cfg.UIP_ETHTYPE_ARP then
    let g2 := env.uip_arp_arpin g
    let out := send_only cfg env g2
    (Call.uip_arp_arpin g2.uip_len :: out.1, out.2)
  else
    ([], g)

/-- The branch `else if(timer_timeout_reached(&periodic_timer)) { ... }`, after
the timeout was found reached: reset, sweeps, aging check. -/
def periodic_branch {ε : Type} (cfg : Config) (env : Env ε) (s : TaskState ε) :
    List Call × TaskState ε :=
  let p := timer_reset_timeout s.periodic_timer (env.timer_get_tick s.g)
  let sw := sweeps cfg env s.g
  let ag := arp_aging env sw.2 s.arp_timer
  (Call.timer_reset_timeout TimerId.periodic_timer :: (sw.1 ++ ag.1),
   { g := ag.2.1, periodic_timer := p, arp_timer := ag.2.2 })

/-- The value returned by `eth_tapdev_read(eth_port)` in the iteration that
starts in `s`. -/
def read_ret {ε : Type} (cfg : Config) (env : Env ε) (s : TaskState ε) : Int :=
  (env.eth_tapdev_read cfg.eth_port s.g).1

/-- The globals right after `uip_len = eth_tapdev_read(eth_port)`: the read has
run and its return value has been stored into `uip_len`. -/
def after_read {ε : Type} (cfg : Config) (env : Env ε) (s : TaskState ε) :
    Globals ε :=
  { (env.eth_tapdev_read cfg.eth_port s.g).2 with
    uip_len := store_uip_len cfg (read_ret cfg env s) }

/-- One iteration of the `while(1)` loop of `vuIP_Task`: the calls it makes, in
order, and the state it leaves for the next iteration. -/
def vuIP_Task_loop {ε : Type} (cfg : Config) (env : Env ε) (s : TaskState ε) :
    List Call × TaskState ε :=
  let g1 := after_read cfg env s
  if 0 < g1.uip_len then
    let f := frame_branch cfg env g1
    (Call.eth_tapdev_read (read_ret cfg env s) :: f.1, { s with g := f.2 })
  else if timer_timeout_reached s.periodic_timer (env.timer_get_tick g1) then
    let b := periodic_branch cfg env { s with g := g1 }
    (Call.eth_tapdev_read (read_ret cfg env s) ::
      Call.timer_timeout_reached TimerId.periodic_timer true :: b.1, b.2)
  else
    ([Call.eth_tapdev_read (read_ret cfg env s),
      Call.timer_timeout_reached TimerId.periodic_timer false],
     { s with g := g1 })

/-! ## Classification of calls

Used to state which calls a trace contains. -/

/-- Calls into the stack: everything the loop calls in uIP and its
address-resolution module. -/
def Call.is_stack_call : Call → Bool
  | Call.uip_arp_ipin => true
  | Call.uip_input _ => true
  | Call.uip_arp_out => true
  | Call.uip_arp_arpin _ => true
  | Call.uip_periodic _ _ => true
  | Call.uip_udp_periodic _ _ => true
  | Call.uip_arp_timer => true
  | _ => false

/-- Periodic and aging work: the per-slot periodic entry points, the aging
entry point, and the reset of either timeout. -/
def Call.is_housekeeping : Call → Bool
  | Call.uip_periodic _ _ => true
  | Call.uip_udp_periodic _ _ => true
  | Call.uip_arp_timer => true
  | Call.timer_reset_timeout _ => true
  | _ => false

/-- The output length a call signals to the loop: the value of `uip_len` on
return from one of the four stack entry points whose output the loop tests. -/
def Call.output_len : Call → Option Nat
  | Call.uip_input l => some l
  | Call.uip_arp_arpin l => some l
  | Call.uip_periodic _ l => some l
  | Call.uip_udp_periodic _ l => some l
  | _ => none

/-- The calls made before a transmit justify it: the last stack entry point
reported an output length > 0, and nothing but (possibly) `uip_arp_out` was
called since. -/
def tx_justified (pre : List Call) : Prop :=
  ∃ pre0 c l, c.output_len = some l ∧ 0 < l ∧
    (pre = pre0 ++ [c] ∨ pre = pre0 ++ [c, Call.uip_arp_out])

/-- The calls made after an output signal contain its transmit, directly or
after `uip_arp_out`, and no second transmit follows it. -/
def one_tx_follows (post : List Call) : Prop :=
  ∃ post0, (post = Call.eth_tapdev_send :: post0 ∨
      post = Call.uip_arp_out :: Call.eth_tapdev_send :: post0) ∧
    ∀ rest, post0 ≠ Call.eth_tapdev_send :: rest

/-- The transmit discipline of a trace: every transmit is justified by what
precedes it, every nonzero output signal is followed by its one transmit, and
the trace does not begin with a transmit. -/
def tx_disciplined (tr : List Call) : Prop :=
  (∀ pre post, tr = pre ++ Call.eth_tapdev_send :: post → tx_justified pre)
  ∧ (∀ pre c post l, tr = pre ++ c :: post → c.output_len = some l → l ≠ 0 →
      one_tx_follows post)
  ∧ (∀ rest, tr ≠ Call.eth_tapdev_send :: rest)

/-- The slot index of a `uip_periodic(i)` call. -/
def Call.periodic_index : Call → Option Nat
  | Call.uip_periodic i _ => some i
  | _ => none

/-- A `uip_periodic(i)` call that reported a nonzero output length. -/
def Call.is_conn_output : Call → Bool
  | Call.uip_periodic _ l => decide (l ≠ 0)
  | _ => false

/-- The calls of the connection sweep of the iteration that starts in `s`: the
loop `for(i = 0; i < UIP_CONNS; i++)` run on the globals the read left. -/
def conn_sweep_trace {ε : Type} (cfg : Config) (env : Env ε) (s : TaskState ε) :
    List Call :=
  (conn_sweep cfg env cfg.UIP_CONNS 0 (after_read cfg env s)).1

/-- The globals at the point where the connection sweep of the iteration that
starts in `s` calls `uip_periodic(i)`: slots 0 to i - 1 have been serviced. -/
def slot_globals {ε : Type} (cfg : Config) (env : Env ε) (s : TaskState ε) (i : Nat) :
    Globals ε :=
  (conn_sweep cfg env i 0 (after_read cfg env s)).2

/-- The globals at the point where the periodic branch checks the aging
timeout: after both sweeps have run on what the read left. -/
def aging_point {ε : Type} (cfg : Config) (env : Env ε) (s : TaskState ε) :
    Globals ε :=
  (sweeps cfg env (after_read cfg env s)).2

/-- The environment `env` with a device that has no frame: the read returns 0
and otherwise does what the read of `env` does. -/
def read_zero {ε : Type} (env : Env ε) : Env ε :=
  { env with eth_tapdev_read := fun p g => (0, (env.eth_tapdev_read p g).2) }

/-- Calls of the frame path: the stack entry points a classified frame is
dispatched to. -/
def Call.is_frame_dispatch : Call → Bool
  | Call.uip_arp_ipin => true
  | Call.uip_input _ => true
  | Call.uip_arp_arpin _ => true
  | _ => false

/-! ## Executions of the task -/

/-- The start of `vuIP_Task`, down to the loop.  In the globals `g` the task
finds after creating its semaphore, the periodic timeout is armed with 500
ticks and the aging timeout with 10000 ticks; then `init`, which stands for
`uip_init`, the address setup and `_app_init`, runs on the globals. -/
def vuIP_Task_start {ε : Type} (env : Env ε) (init : Globals ε → Globals ε)
    (g : Globals ε) : TaskState ε :=
  { g := init g
    periodic_timer := timer_start_timeout (env.timer_get_tick g) 500
    arp_timer := timer_start_timeout (env.timer_get_tick g) 10000 }

/-- The state of the task after `n` iterations of the `while(1)` loop, started
in `s`. -/
def vuIP_Task_run {ε : Type} (cfg : Config) (env : Env ε) :
    Nat → TaskState ε → TaskState ε
  | 0, s => s
  | n + 1, s => vuIP_Task_run cfg env n (vuIP_Task_loop cfg env s).2

/-- The tick at which the iteration that starts in `s` calls `uip_arp_timer`, if
it calls it: the tick counter as it stands in the globals the call is made in,
which are the globals the aging timeout was queried and reset in. -/
def arp_timer_call_tick {ε : Type} (cfg : Config) (env : Env ε) (s : TaskState ε) :
    Option Nat :=
  if Call.uip_arp_timer ∈ (vuIP_Task_loop cfg env s).1 then
    some (env.timer_get_tick (aging_point cfg env s))
  else
    none

/-- The ticks of the `uip_arp_timer` calls made by the first `n` iterations of
the loop started in `s`, in the order of the calls. -/
def arp_timer_call_ticks {ε : Type} (cfg : Config) (env : Env ε) :
    Nat → TaskState ε → List Nat
  | 0, _ => []
  | n + 1, s =>
    (arp_timer_call_tick cfg env s).toList ++
      arp_timer_call_ticks cfg env n (vuIP_Task_loop cfg env s).2

/-! ## A small concrete environment

Used to run the loop on explicit inputs. -/

/-- A scripted world: the tick counter, the frame the device holds (the value
the next read returns and the type field it leaves in the buffer), the output
length the frame entry points report, and the output length each connection
and datagram slot reports when serviced. -/
structure Script where
  tick : Nat
  frame_len : Int
  frame_type : Nat
  input_out : Nat
  conn_out : Nat → Nat
  udp_out : Nat → Nat

/-- The environment that plays a `Script`: each stack entry point writes the
scripted output length into `uip_len` and leaves the rest alone. -/
def scripted : Env Script where
  eth_tapdev_read := fun _ g => (g.ext.frame_len, g)
  eth_tapdev_send := fun _ g => g
  BUF_type := fun g => g.ext.frame_type
  uip_arp_ipin := fun g => g
  uip_input := fun g => { g with uip_len := g.ext.input_out }
  uip_arp_out := fun g => g
  uip_arp_arpin := fun g => { g with uip_len := g.ext.input_out }
  uip_periodic := fun i g => { g with uip_len := g.ext.conn_out i }
  uip_udp_periodic := fun i g => { g with uip_len := g.ext.udp_out i }
  uip_arp_timer := fun g => g
  timer_get_tick := fun g => g.ext.tick

/-- A configuration with the values uIP uses: Ethernet type tags 0x0800 and
0x0806, a 16-bit `uip_len`, and `n` connection slots, `m` datagram slots.  The
byte-order macro is taken as the identity. -/
def demo_cfg (n : Nat) (udp : Bool) (m : Nat) : Config where
  UIP_CONNS := n
  UIP_UDP := udp
  UIP_UDP_CONNS := m
  UIP_ETHTYPE_IP := 0x0800
  UIP_ETHTYPE_ARP := 0x0806
  htons := fun x => x
  uip_len_bits := 16
  eth_port := 0

/-- A task state over a script, with both timeouts started at tick 0 with the
durations of `vuIP_Task` (500 and 10000). -/
def demo_state (w : Script) : TaskState Script where
  g := { uip_len := 0, ext := w }
  periodic_timer := timer_start_timeout 0 500
  arp_timer := timer_start_timeout 0 10000

/-- The environment that plays a `Script` on a running clock: as `scripted`,
but every read of the device takes `step` ticks. -/
def ticking (step : Nat) : Env Script :=
  { scripted with
    eth_tapdev_read := fun _ g =>
      (g.ext.frame_len, { g with ext := { g.ext with tick := g.ext.tick + step } }) }

/-! ## Basic facts -/

theorem store_uip_len_zero (cfg : Config) : store_uip_len cfg 0 = 0 := by
  simp [store_uip_len]

theorem store_uip_len_of_fits (cfg : Config) (r : Int) (h0 : 0 ≤ r)
    (h1 : r < (2 : Int) ^ cfg.uip_len_bits) : (store_uip_len cfg r : Int) = r := by
  unfold store_uip_len
  rw [Int.emod_eq_of_lt h0 h1]
  exact Int.toNat_of_nonneg h0

/-! ## Transmit discipline -/

theorem tx_justified_prepend (t pre : List Call) (h : tx_justified pre) :
    tx_justified (t ++ pre) := by
  obtain ⟨pre0, c, l, hc, hl, h | h⟩ := h
  · exact ⟨t ++ pre0, c, l, hc, hl, Or.inl (by rw [h, List.append_assoc])⟩
  · exact ⟨t ++ pre0, c, l, hc, hl, Or.inr (by rw [h, List.append_assoc])⟩

theorem tx_disciplined_nil : tx_disciplined [] := by
  refine ⟨?_, ?_, ?_⟩
  · intro pre post h; simp at h
  · intro pre c post l h; simp at h
  · intro rest h; simp at h

theorem tx_disciplined_append (t1 t2 : List Call) (h1 : tx_disciplined t1)
    (h2 : tx_disciplined t2) : tx_disciplined (t1 ++ t2) := by
  obtain ⟨a1, b1, c1⟩ := h1
  obtain ⟨a2, b2, c2⟩ := h2
  refine ⟨?_, ?_, ?_⟩
  · intro pre post h
    rcases List.append_eq_append_iff.mp h with ⟨m, hp, ht⟩ | ⟨m, ht, hm⟩
    · rw [hp]; exact tx_justified_prepend _ _ (a2 m post ht)
    · cases m with
      | nil => simp at hm; exact absurd hm.symm (c2 post)
      | cons x m =>
        simp at hm
        obtain ⟨hx, _⟩ := hm
        subst hx
        exact a1 pre m ht
  · intro pre c post l h hc hl
    rcases List.append_eq_append_iff.mp h with ⟨m, hp, ht⟩ | ⟨m, ht, hm⟩
    · exact b2 m c post l ht hc hl
    · cases m with
      | nil => simp at hm; exact b2 [] c post l (by simpa using hm.symm) hc hl
      | cons x m =>
        simp at hm
        obtain ⟨hx, hpost⟩ := hm
        subst hx
        obtain ⟨post0, hform, hhead⟩ := b1 pre c m l ht hc hl
        refine ⟨post0 ++ t2, ?_, ?_⟩
        · rcases hform with hf | hf
          · left; rw [hpost, hf]; rfl
          · right; rw [hpost, hf]; rfl
        · intro rest hr
          cases post0 with
          | nil => exact c2 rest (by simpa using hr)
          | cons y post0 =>
            simp at hr
            exact hhead post0 (by rw [hr.1])
  · intro rest h
    cases t1 with
    | nil => exact c2 rest (by simpa using h)
    | cons y t1 =>
      simp at h
      exact c1 t1 (by rw [h.1])

theorem tx_disciplined_quiet (c : Call) (hs : c ≠ Call.eth_tapdev_send)
    (hq : c.output_len = none ∨ c.output_len = some 0) : tx_disciplined [c] := by
  refine ⟨?_, ?_, ?_⟩
  · intro pre post h
    rcases pre with _ | ⟨a, pre⟩
    · simp at h; exact absurd h.1 hs
    · simp at h
  · intro pre d post l h hd hl
    rcases pre with _ | ⟨a, pre⟩
    · simp at h
      obtain ⟨hcd, _⟩ := h
      subst hcd
      rcases hq with hq | hq
      · rw [hq] at hd; cases hd
      · rw [hq] at hd; cases hd; exact absurd rfl hl
    · simp at h
  · intro rest h
    simp at h
    exact hs h.1

theorem tx_disciplined_signal_send (c : Call) (l : Nat) (hc : c.output_len = some l)
    (hl : 0 < l) : tx_disciplined [c, Call.eth_tapdev_send] := by
  have hcs : c ≠ Call.eth_tapdev_send := by
    intro h; rw [h] at hc; cases hc
  refine ⟨?_, ?_, ?_⟩
  · intro pre post h
    rcases pre with _ | ⟨a, _ | ⟨b, pre⟩⟩
    · simp at h; exact absurd h.1 hcs
    · simp at h
      exact ⟨[], c, l, hc, hl, Or.inl (by simp [h.1])⟩
    · simp at h
  · intro pre d post k h hd hk
    rcases pre with _ | ⟨a, _ | ⟨b, pre⟩⟩
    · simp at h
      exact ⟨[], Or.inl (by rw [← h.2]), by simp⟩
    · simp at h
      rw [← h.2.1] at hd; cases hd
    · simp at h
  · intro rest h
    simp at h
    exact hcs h.1

theorem tx_disciplined_signal_arp_send (c : Call) (l : Nat) (hc : c.output_len = some l)
    (hl : 0 < l) : tx_disciplined [c, Call.uip_arp_out, Call.eth_tapdev_send] := by
  have hcs : c ≠ Call.eth_tapdev_send := by
    intro h; rw [h] at hc; cases hc
  refine ⟨?_, ?_, ?_⟩
  · intro pre post h
    rcases pre with _ | ⟨a, _ | ⟨b, _ | ⟨d, pre⟩⟩⟩
    · simp at h; exact absurd h.1 hcs
    · simp at h
    · simp at h
      exact ⟨[], c, l, hc, hl, Or.inr (by simp [h.1, h.2.1])⟩
    · simp at h
  · intro pre d post k h hd hk
    rcases pre with _ | ⟨a, _ | ⟨b, _ | ⟨e, pre⟩⟩⟩
    · simp at h
      exact ⟨[], Or.inr (by rw [← h.2]), by simp⟩
    · simp at h
      rw [← h.2.1] at hd; cases hd
    · simp at h
      rw [← h.2.2.1] at hd; cases hd
    · simp at h
  · intro rest h
    simp at h
    exact hcs h.1

theorem tx_disciplined_arp_out_and_send {ε : Type} (cfg : Config) (env : Env ε)
    (g : Globals ε) (c : Call) (hc : c.output_len = some g.uip_len) :
    tx_disciplined (c :: (arp_out_and_send cfg env g).1) := by
  unfold arp_out_and_send
  split
  · next h => exact tx_disciplined_signal_arp_send c _ hc h
  · next h =>
    have hz : g.uip_len = 0 := by omega
    refine tx_disciplined_quiet c ?_ (Or.inr (by rw [hc, hz]))
    intro hs; rw [hs] at hc; cases hc

theorem tx_disciplined_send_only {ε : Type} (cfg : Config) (env : Env ε)
    (g : Globals ε) (c : Call) (hc : c.output_len = some g.uip_len) :
    tx_disciplined (c :: (send_only cfg env g).1) := by
  unfold send_only
  split
  · next h => exact tx_disciplined_signal_send c _ hc h
  · next h =>
    have hz : g.uip_len = 0 := by omega
    refine tx_disciplined_quiet c ?_ (Or.inr (by rw [hc, hz]))
    intro hs; rw [hs] at hc; cases hc

theorem tx_disciplined_cons (c : Call) (t : List Call) (hs : c ≠ Call.eth_tapdev_send)
    (hq : c.output_len = none) (ht : tx_disciplined t) : tx_disciplined (c :: t) :=
  tx_disciplined_append [c] t (tx_disciplined_quiet c hs (Or.inl hq)) ht

theorem tx_disciplined_conn_sweep {ε : Type} (cfg : Config) (env : Env ε) (n : Nat) :
    ∀ (i : Nat) (g : Globals ε), tx_disciplined (conn_sweep cfg env n i g).1 := by
  induction n with
  | zero => intro i g; exact tx_disciplined_nil
  | succ n ih =>
    intro i g
    simp only [conn_sweep]
    rw [← List.cons_append]
    exact tx_disciplined_append _ _
      (tx_disciplined_arp_out_and_send cfg env _ _ rfl) (ih _ _)

theorem tx_disciplined_udp_sweep {ε : Type} (cfg : Config) (env : Env ε) (n : Nat) :
    ∀ (i : Nat) (g : Globals ε), tx_disciplined (udp_sweep cfg env n i g).1 := by
  induction n with
  | zero => intro i g; exact tx_disciplined_nil
  | succ n ih =>
    intro i g
    simp only [udp_sweep]
    rw [← List.cons_append]
    exact tx_disciplined_append _ _
      (tx_disciplined_arp_out_and_send cfg env _ _ rfl) (ih _ _)

theorem tx_disciplined_sweeps {ε : Type} (cfg : Config) (env : Env ε) (g : Globals ε) :
    tx_disciplined (sweeps cfg env g).1 := by
  unfold sweeps
  split
  · exact tx_disciplined_append _ _ (tx_disciplined_conn_sweep cfg env _ _ _)
      (tx_disciplined_udp_sweep cfg env _ _ _)
  · exact tx_disciplined_conn_sweep cfg env _ _ _

theorem tx_disciplined_arp_aging {ε : Type} (env : Env ε) (g : Globals ε)
    (t : _timeout) : tx_disciplined (arp_aging env g t).1 := by
  unfold arp_aging
  split
  · exact tx_disciplined_cons _ _ (by simp) rfl
      (tx_disciplined_cons _ _ (by simp) rfl
        (tx_disciplined_quiet _ (by simp) (Or.inl rfl)))
  · exact tx_disciplined_quiet _ (by simp) (Or.inl rfl)

theorem tx_disciplined_frame_branch {ε : Type} (cfg : Config) (env : Env ε)
    (g : Globals ε) : tx_disciplined (frame_branch cfg env g).1 := by
  unfold frame_branch
  split
  · exact tx_disciplined_cons _ _ (by simp) rfl
      (tx_disciplined_arp_out_and_send cfg env _ _ rfl)
  · split
    · exact tx_disciplined_send_only cfg env _ _ rfl
    · exact tx_disciplined_nil

theorem tx_disciplined_periodic_branch {ε : Type} (cfg : Config) (env : Env ε)
    (s : TaskState ε) : tx_disciplined (periodic_branch cfg env s).1 := by
  unfold periodic_branch
  exact tx_disciplined_cons _ _ (by simp) rfl
    (tx_disciplined_append _ _ (tx_disciplined_sweeps cfg env _)
      (tx_disciplined_arp_aging env _ _))

theorem tx_disciplined_loop {ε : Type} (cfg : Config) (env : Env ε) (s : TaskState ε) :
    tx_disciplined (vuIP_Task_loop cfg env s).1 := by
  unfold vuIP_Task_loop
  simp only []
  split
  · exact tx_disciplined_cons _ _ (by simp) rfl (tx_disciplined_frame_branch cfg env _)
  · split
    · exact tx_disciplined_cons _ _ (by simp) rfl
        (tx_disciplined_cons _ _ (by simp) rfl (tx_disciplined_periodic_branch cfg env _))
    · exact tx_disciplined_cons _ _ (by simp) rfl
        (tx_disciplined_quiet _ (by simp) (Or.inl rfl))

/-! ## Which calls each block can make -/

theorem arp_out_and_send_forall {ε : Type} (cfg : Config) (env : Env ε) (g : Globals ε)
    (P : Call → Prop) (h3 : P Call.uip_arp_out) (h4 : P Call.eth_tapdev_send) :
    ∀ c ∈ (arp_out_and_send cfg env g).1, P c := by
  unfold arp_out_and_send
  split
  · intro c hc
    simp only [List.mem_cons, List.mem_singleton, List.not_mem_nil, or_false] at hc
    rcases hc with rfl | rfl
    · exact h3
    · exact h4
  · intro c hc; simp at hc

theorem conn_sweep_forall {ε : Type} (cfg : Config) (env : Env ε) (P : Call → Prop)
    (h1 : ∀ i l, P (Call.uip_periodic i l))
    (h3 : P Call.uip_arp_out) (h4 : P Call.eth_tapdev_send) (n : Nat) :
    ∀ (i : Nat) (g : Globals ε), ∀ c ∈ (conn_sweep cfg env n i g).1, P c := by
  induction n with
  | zero => intro i g c hc; simp [conn_sweep] at hc
  | succ n ih =>
    intro i g c hc
    simp only [conn_sweep, List.mem_cons, List.mem_append] at hc
    rcases hc with rfl | hc | hc
    · exact h1 _ _
    · exact arp_out_and_send_forall cfg env _ P h3 h4 c hc
    · exact ih _ _ c hc

theorem udp_sweep_forall {ε : Type} (cfg : Config) (env : Env ε) (P : Call → Prop)
    (h2 : ∀ i l, P (Call.uip_udp_periodic i l))
    (h3 : P Call.uip_arp_out) (h4 : P Call.eth_tapdev_send) (n : Nat) :
    ∀ (i : Nat) (g : Globals ε), ∀ c ∈ (udp_sweep cfg env n i g).1, P c := by
  induction n with
  | zero => intro i g c hc; simp [udp_sweep] at hc
  | succ n ih =>
    intro i g c hc
    simp only [udp_sweep, List.mem_cons, List.mem_append] at hc
    rcases hc with rfl | hc | hc
    · exact h2 _ _
    · exact arp_out_and_send_forall cfg env _ P h3 h4 c hc
    · exact ih _ _ c hc

theorem sweeps_forall {ε : Type} (cfg : Config) (env : Env ε) (g : Globals ε)
    (P : Call → Prop) (h1 : ∀ i l, P (Call.uip_periodic i l))
    (h2 : ∀ i l, P (Call.uip_udp_periodic i l))
    (h3 : P Call.uip_arp_out) (h4 : P Call.eth_tapdev_send) :
    ∀ c ∈ (sweeps cfg env g).1, P c := by
  unfold sweeps
  split
  · intro c hc
    simp only [List.mem_append] at hc
    rcases hc with hc | hc
    · exact conn_sweep_forall cfg env P h1 h3 h4 _ _ _ c hc
    · exact udp_sweep_forall cfg env P h2 h3 h4 _ _ _ c hc
  · exact conn_sweep_forall cfg env P h1 h3 h4 _ _ _

theorem frame_branch_forall {ε : Type} (cfg : Config) (env : Env ε) (g : Globals ε)
    (P : Call → Prop) (h0 : P Call.uip_arp_ipin) (h1 : ∀ l, P (Call.uip_input l))
    (h2 : ∀ l, P (Call.uip_arp_arpin l))
    (h3 : P Call.uip_arp_out) (h4 : P Call.eth_tapdev_send) :
    ∀ c ∈ (frame_branch cfg env g).1, P c := by
  unfold frame_branch
  split
  · intro c hc
    simp only [List.mem_cons] at hc
    rcases hc with rfl | rfl | hc
    · exact h0
    · exact h1 _
    · exact arp_out_and_send_forall cfg env _ P h3 h4 c hc
  · split
    · intro c hc
      simp only [List.mem_cons] at hc
      rcases hc with rfl | hc
      · exact h2 _
      · unfold send_only at hc
        split at hc
        · simp only [List.mem_singleton] at hc
          rw [hc]; exact h4
        · simp at hc
    · intro c hc; simp at hc

theorem loop_starts_with_read {ε : Type} (cfg : Config) (env : Env ε) (s : TaskState ε) :
    ∃ rest, (vuIP_Task_loop cfg env s).1 =
      Call.eth_tapdev_read (read_ret cfg env s) :: rest := by
  unfold vuIP_Task_loop
  simp only []
  split
  · exact ⟨_, rfl⟩
  · split
    · exact ⟨_, rfl⟩
    · exact ⟨_, rfl⟩

/-! ## Frame path -/

theorem ip_path_trace_eq {ε : Type} (cfg : Config) (env : Env ε) (s : TaskState ε)
    (hlen : 0 < (after_read cfg env s).uip_len)
    (hip : env.BUF_type (after_read cfg env s) = cfg.htons cfg.UIP_ETHTYPE_IP) :
    (vuIP_Task_loop cfg env s).1 =
      Call.eth_tapdev_read (read_ret cfg env s) :: Call.uip_arp_ipin ::
        Call.uip_input (env.uip_input (env.uip_arp_ipin (after_read cfg env s))).uip_len ::
        (if 0 < (env.uip_input (env.uip_arp_ipin (after_read cfg env s))).uip_len
          then [Call.uip_arp_out, Call.eth_tapdev_send] else []) := by
  simp only [vuIP_Task_loop, hlen, if_true, frame_branch, hip, arp_out_and_send]
  split <;> simp

/-- C1: in an iteration whose read stores a length > 0 into `uip_len` and whose
frame carries the IP type tag, the loop calls `uip_arp_ipin`, then `uip_input`,
and, exactly when `uip_len` is > 0 on return from `uip_input`, one `uip_arp_out`
followed by one `eth_tapdev_send`; nothing else is called. -/
theorem ip_frame_dispatch {ε : Type} (cfg : Config) (env : Env ε) (s : TaskState ε)
    (hlen : 0 < (after_read cfg env s).uip_len)
    (hip : env.BUF_type (after_read cfg env s) = cfg.htons cfg.UIP_ETHTYPE_IP) :
    (vuIP_Task_loop cfg env s).1 =
      Call.eth_tapdev_read (read_ret cfg env s) :: Call.uip_arp_ipin ::
        Call.uip_input (env.uip_input (env.uip_arp_ipin (after_read cfg env s))).uip_len ::
        (if 0 < (env.uip_input (env.uip_arp_ipin (after_read cfg env s))).uip_len
          then [Call.uip_arp_out, Call.eth_tapdev_send] else [])
    ∧ (0 < (env.uip_input (env.uip_arp_ipin (after_read cfg env s))).uip_len →
        (vuIP_Task_loop cfg env s).1.count Call.uip_arp_out = 1
        ∧ (vuIP_Task_loop cfg env s).1.count Call.eth_tapdev_send = 1) := by
  have key := ip_path_trace_eq cfg env s hlen hip
  refine ⟨key, fun hout => ?_⟩
  rw [key, if_pos hout]
  simp [List.count_cons]

/-- Witness of C1: an IP frame of 60 bytes whose processing reports 40 bytes of
output. -/
theorem ip_frame_dispatch_witness :
    (vuIP_Task_loop (demo_cfg 4 false 0) scripted
        (demo_state ⟨0, 60, 0x0800, 40, fun _ => 0, fun _ => 0⟩)).1 =
      [Call.eth_tapdev_read 60, Call.uip_arp_ipin, Call.uip_input 40,
        Call.uip_arp_out, Call.eth_tapdev_send] := by
  have h := (ip_frame_dispatch (demo_cfg 4 false 0) scripted
    (demo_state ⟨0, 60, 0x0800, 40, fun _ => 0, fun _ => 0⟩) (by decide) (by decide)).1
  simpa [scripted, after_read, read_ret, demo_state] using h

/-- C2: in an iteration whose read stores a length > 0 into `uip_len` and whose
frame carries the ARP type tag (the two tags being distinct), the only stack
call is `uip_arp_arpin`; when `uip_len` is > 0 on its return exactly one
`eth_tapdev_send` follows it directly, when it is 0 there is no transmit; in
both cases `uip_arp_out` is not called. -/
theorem arp_frame_dispatch {ε : Type} (cfg : Config) (env : Env ε) (s : TaskState ε)
    (htags : cfg.htons cfg.UIP_ETHTYPE_IP ≠ cfg.htons cfg.UIP_ETHTYPE_ARP)
    (hlen : 0 < (after_read cfg env s).uip_len)
    (harp : env.BUF_type (after_read cfg env s) = cfg.htons cfg.UIP_ETHTYPE_ARP) :
    (vuIP_Task_loop cfg env s).1 =
      Call.eth_tapdev_read (read_ret cfg env s) ::
        Call.uip_arp_arpin (env.uip_arp_arpin (after_read cfg env s)).uip_len ::
        (if 0 < (env.uip_arp_arpin (after_read cfg env s)).uip_len
          then [Call.eth_tapdev_send] else [])
    ∧ Call.uip_arp_out ∉ (vuIP_Task_loop cfg env s).1
    ∧ (0 < (env.uip_arp_arpin (after_read cfg env s)).uip_len →
        (vuIP_Task_loop cfg env s).1.count Call.eth_tapdev_send = 1)
    ∧ ((env.uip_arp_arpin (after_read cfg env s)).uip_len = 0 →
        Call.eth_tapdev_send ∉ (vuIP_Task_loop cfg env s).1) := by
  have hnip : env.BUF_type (after_read cfg env s) ≠ cfg.htons cfg.UIP_ETHTYPE_IP := by
    rw [harp]; exact fun h => htags h.symm
  have key : (vuIP_Task_loop cfg env s).1 =
      Call.eth_tapdev_read (read_ret cfg env s) ::
        Call.uip_arp_arpin (env.uip_arp_arpin (after_read cfg env s)).uip_len ::
        (if 0 < (env.uip_arp_arpin (after_read cfg env s)).uip_len
          then [Call.eth_tapdev_send] else []) := by
    simp only [vuIP_Task_loop, hlen, if_true, frame_branch, if_neg hnip, if_pos harp, send_only]
    split <;> simp
  refine ⟨key, ?_, ?_, ?_⟩
  · rw [key]; split <;> simp
  · intro hout; rw [key, if_pos hout]; simp [List.count_cons]
  · intro hz; rw [key, hz]; simp

/-- Witness of C2: an ARP request of 42 bytes answered by a reply of 42 bytes. -/
theorem arp_frame_dispatch_witness :
    (vuIP_Task_loop (demo_cfg 4 false 0) scripted
        (demo_state ⟨0, 42, 0x0806, 42, fun _ => 0, fun _ => 0⟩)).1 =
      [Call.eth_tapdev_read 42, Call.uip_arp_arpin 42, Call.eth_tapdev_send] := by
  have h := (arp_frame_dispatch (demo_cfg 4 false 0) scripted
    (demo_state ⟨0, 42, 0x0806, 42, fun _ => 0, fun _ => 0⟩)
    (by decide) (by decide) (by decide)).1
  simpa [scripted, after_read, read_ret, demo_state] using h

/-- C3: in an iteration whose read stores a length > 0 into `uip_len` and whose
frame carries neither the IP nor the ARP type tag, the read is the only call of
the iteration: no stack call, no transmit, no timer call; the state is left as
the read left it. -/
theorem unknown_frame_dropped {ε : Type} (cfg : Config) (env : Env ε) (s : TaskState ε)
    (hlen : 0 < (after_read cfg env s).uip_len)
    (hnip : env.BUF_type (after_read cfg env s) ≠ cfg.htons cfg.UIP_ETHTYPE_IP)
    (hnarp : env.BUF_type (after_read cfg env s) ≠ cfg.htons cfg.UIP_ETHTYPE_ARP) :
    (vuIP_Task_loop cfg env s).1 = [Call.eth_tapdev_read (read_ret cfg env s)]
    ∧ (∀ c ∈ (vuIP_Task_loop cfg env s).1, c.is_stack_call = false)
    ∧ Call.eth_tapdev_send ∉ (vuIP_Task_loop cfg env s).1
    ∧ (vuIP_Task_loop cfg env s).2 = { s with g := after_read cfg env s } := by
  have key : vuIP_Task_loop cfg env s =
      ([Call.eth_tapdev_read (read_ret cfg env s)], { s with g := after_read cfg env s }) := by
    simp only [vuIP_Task_loop, hlen, if_true, frame_branch, hnip, hnarp, if_false]
  rw [key]
  simp [Call.is_stack_call]

/-- Witness of C3: a 64-byte frame with the IPv6 type tag 0x86DD. -/
theorem unknown_frame_dropped_witness :
    (vuIP_Task_loop (demo_cfg 4 false 0) scripted
        (demo_state ⟨0, 64, 0x86DD, 40, fun _ => 0, fun _ => 0⟩)).1 =
      [Call.eth_tapdev_read 64] := by
  have h := (unknown_frame_dropped (demo_cfg 4 false 0) scripted
    (demo_state ⟨0, 64, 0x86DD, 40, fun _ => 0, fun _ => 0⟩)
    (by decide) (by decide) (by decide)).1
  simpa [scripted, read_ret, demo_state] using h

/-! ## Periodic sweep -/

theorem periodic_index_arp_out_and_send {ε : Type} (cfg : Config) (env : Env ε)
    (g : Globals ε) : (arp_out_and_send cfg env g).1.filterMap Call.periodic_index = [] := by
  unfold arp_out_and_send
  split <;> simp [Call.periodic_index]

theorem periodic_index_conn_sweep {ε : Type} (cfg : Config) (env : Env ε) (n : Nat) :
    ∀ (i : Nat) (g : Globals ε),
      (conn_sweep cfg env n i g).1.filterMap Call.periodic_index = List.range' i n := by
  induction n with
  | zero => intro i g; simp [conn_sweep]
  | succ n ih =>
    intro i g
    simp only [conn_sweep, List.filterMap_cons, Call.periodic_index, List.filterMap_append,
      periodic_index_arp_out_and_send, ih, List.nil_append, List.range'_succ]

theorem periodic_index_udp_sweep {ε : Type} (cfg : Config) (env : Env ε) (n : Nat) :
    ∀ (i : Nat) (g : Globals ε),
      (udp_sweep cfg env n i g).1.filterMap Call.periodic_index = [] := by
  induction n with
  | zero => intro i g; simp [udp_sweep]
  | succ n ih =>
    intro i g
    simp only [udp_sweep, List.filterMap_cons, Call.periodic_index, List.filterMap_append,
      periodic_index_arp_out_and_send, ih, List.nil_append]

theorem periodic_index_arp_aging {ε : Type} (env : Env ε) (g : Globals ε) (t : _timeout) :
    (arp_aging env g t).1.filterMap Call.periodic_index = [] := by
  unfold arp_aging
  split <;> simp [Call.periodic_index]

theorem loop_periodic_case {ε : Type} (cfg : Config) (env : Env ε) (s : TaskState ε)
    (hlen : (after_read cfg env s).uip_len = 0)
    (hreach : timer_timeout_reached s.periodic_timer
      (env.timer_get_tick (after_read cfg env s)) = true) :
    vuIP_Task_loop cfg env s =
      (Call.eth_tapdev_read (read_ret cfg env s) ::
        Call.timer_timeout_reached TimerId.periodic_timer true ::
        (periodic_branch cfg env { s with g := after_read cfg env s }).1,
       (periodic_branch cfg env { s with g := after_read cfg env s }).2) := by
  simp only [vuIP_Task_loop, hlen, Nat.lt_irrefl, if_false, hreach, if_true]

theorem loop_idle_case {ε : Type} (cfg : Config) (env : Env ε) (s : TaskState ε)
    (hlen : (after_read cfg env s).uip_len = 0)
    (hreach : timer_timeout_reached s.periodic_timer
      (env.timer_get_tick (after_read cfg env s)) = false) :
    vuIP_Task_loop cfg env s =
      ([Call.eth_tapdev_read (read_ret cfg env s),
        Call.timer_timeout_reached TimerId.periodic_timer false],
       { s with g := after_read cfg env s }) := by
  simp [vuIP_Task_loop, hlen, hreach]

theorem loop_frame_case {ε : Type} (cfg : Config) (env : Env ε) (s : TaskState ε)
    (hlen : 0 < (after_read cfg env s).uip_len) :
    vuIP_Task_loop cfg env s =
      (Call.eth_tapdev_read (read_ret cfg env s) ::
        (frame_branch cfg env (after_read cfg env s)).1,
       { s with g := (frame_branch cfg env (after_read cfg env s)).2 }) := by
  simp only [vuIP_Task_loop, hlen, if_true]

/-- C5: in an iteration whose read yields no frame and whose periodic timeout is
reached, the `uip_periodic` calls of the iteration are, in order, exactly those
for the slot indices 0, 1, ..., UIP_CONNS - 1, whatever the output lengths the
calls report. -/
theorem conn_sweep_complete {ε : Type} (cfg : Config) (env : Env ε) (s : TaskState ε)
    (hlen : (after_read cfg env s).uip_len = 0)
    (hreach : timer_timeout_reached s.periodic_timer
      (env.timer_get_tick (after_read cfg env s)) = true) :
    (vuIP_Task_loop cfg env s).1.filterMap Call.periodic_index = List.range cfg.UIP_CONNS
    ∧ ((vuIP_Task_loop cfg env s).1.filterMap Call.periodic_index).length = cfg.UIP_CONNS := by
  have key : (vuIP_Task_loop cfg env s).1.filterMap Call.periodic_index =
      List.range cfg.UIP_CONNS := by
    rw [loop_periodic_case cfg env s hlen hreach]
    simp only [periodic_branch, sweeps, List.filterMap_cons, Call.periodic_index,
      List.filterMap_append, periodic_index_arp_aging, List.append_nil]
    split
    · simp only [List.filterMap_append, periodic_index_conn_sweep, periodic_index_udp_sweep,
        List.append_nil, List.range_eq_range']
    · simp only [periodic_index_conn_sweep, List.range_eq_range']
  exact ⟨key, by rw [key, List.length_range]⟩

/-- Witness of C5: no frame, tick 500, four connection slots of which slots 1
and 3 report output. -/
theorem conn_sweep_complete_witness :
    (vuIP_Task_loop (demo_cfg 4 false 0) scripted
        (demo_state ⟨500, 0, 0, 0, fun i => if i % 2 = 1 then 7 else 0, fun _ => 0⟩)).1.filterMap
      Call.periodic_index = [0, 1, 2, 3] :=
  (conn_sweep_complete (demo_cfg 4 false 0) scripted
    (demo_state ⟨500, 0, 0, 0, fun i => if i % 2 = 1 then 7 else 0, fun _ => 0⟩)
    (by decide) (by decide)).1

theorem conn_sweep_head {ε : Type} (cfg : Config) (env : Env ε) (n i : Nat)
    (g : Globals ε) :
    (conn_sweep cfg env n i g).1 = [] ∨
      ∃ l rest, (conn_sweep cfg env n i g).1 = Call.uip_periodic i l :: rest := by
  cases n with
  | zero => left; rfl
  | succ n => right; exact ⟨_, _, rfl⟩

theorem conn_sweep_slot {ε : Type} (cfg : Config) (env : Env ε) (n : Nat) :
    ∀ (i : Nat) (g : Globals ε) (pre : List Call) (j l : Nat) (post : List Call),
      (conn_sweep cfg env n i g).1 = pre ++ Call.uip_periodic j l :: post →
      ∃ post0,
        post = (if l ≠ 0 then [Call.uip_arp_out, Call.eth_tapdev_send] else []) ++ post0
        ∧ (post0 = [] ∨ ∃ k rest, post0 = Call.uip_periodic (j + 1) k :: rest) := by
  induction n with
  | zero => intro i g pre j l post h; simp [conn_sweep] at h
  | succ n ih =>
    intro i g pre j l post h
    simp only [conn_sweep] at h
    cases pre with
    | nil =>
      simp only [List.nil_append, List.cons.injEq, Call.uip_periodic.injEq] at h
      obtain ⟨⟨hi, hl⟩, hpost⟩ := h
      subst hi
      refine ⟨(conn_sweep cfg env n (i + 1)
        (arp_out_and_send cfg env (env.uip_periodic i g)).2).1, ?_,
        conn_sweep_head cfg env n (i + 1) _⟩
      rw [← hpost, ← hl]
      unfold arp_out_and_send
      by_cases hz : 0 < (env.uip_periodic i g).uip_len
      · rw [if_pos hz, if_pos (by omega)]
      · rw [if_neg hz, if_neg (by omega)]
    | cons a pre =>
      simp only [List.cons_append, List.cons.injEq] at h
      obtain ⟨_, h⟩ := h
      unfold arp_out_and_send at h
      by_cases hz : 0 < (env.uip_periodic i g).uip_len
      · rw [if_pos hz] at h
        rcases pre with _ | ⟨b, _ | ⟨c, pre⟩⟩
        · simp at h
        · simp at h
        · simp only [List.cons_append, List.cons.injEq, List.nil_append] at h
          exact ih _ _ pre j l post h.2.2
      · rw [if_neg hz] at h
        exact ih _ _ pre j l post h

theorem conn_sweep_split {ε : Type} (cfg : Config) (env : Env ε) (k m : Nat) :
    ∀ (i : Nat) (g : Globals ε),
      conn_sweep cfg env (k + m) i g =
        ((conn_sweep cfg env k i g).1 ++
          (conn_sweep cfg env m (i + k) (conn_sweep cfg env k i g).2).1,
         (conn_sweep cfg env m (i + k) (conn_sweep cfg env k i g).2).2) := by
  induction k with
  | zero => intro i g; simp [conn_sweep]
  | succ k ih =>
    intro i g
    rw [Nat.succ_add]
    simp only [conn_sweep, ih, List.cons_append, List.append_assoc]
    rw [Nat.add_assoc i 1 k, Nat.add_comm 1 k]

theorem conn_sweep_reports {ε : Type} (cfg : Config) (env : Env ε) (s : TaskState ε)
    (i : Nat) (hi : i < cfg.UIP_CONNS) :
    ∃ pre post, conn_sweep_trace cfg env s =
        pre ++ Call.uip_periodic i
          (env.uip_periodic i (slot_globals cfg env s i)).uip_len :: post
      ∧ pre.filterMap Call.periodic_index = List.range i := by
  obtain ⟨m, hm⟩ : ∃ m, cfg.UIP_CONNS = i + (m + 1) := ⟨cfg.UIP_CONNS - i - 1, by omega⟩
  refine ⟨(conn_sweep cfg env i 0 (after_read cfg env s)).1, ?_, ?_, ?_⟩
  · exact ((arp_out_and_send cfg env
      (env.uip_periodic i (slot_globals cfg env s i))).1 ++
      (conn_sweep cfg env m (i + 1)
        (arp_out_and_send cfg env (env.uip_periodic i (slot_globals cfg env s i))).2).1)
  · simp only [conn_sweep_trace, hm, conn_sweep_split, conn_sweep, Nat.zero_add, slot_globals]
  · rw [periodic_index_conn_sweep, List.range_eq_range']

theorem count_send_conn_sweep {ε : Type} (cfg : Config) (env : Env ε) (n : Nat) :
    ∀ (i : Nat) (g : Globals ε),
      (conn_sweep cfg env n i g).1.count Call.eth_tapdev_send =
        (conn_sweep cfg env n i g).1.countP Call.is_conn_output := by
  induction n with
  | zero => intro i g; simp [conn_sweep]
  | succ n ih =>
    intro i g
    simp only [conn_sweep, arp_out_and_send]
    by_cases hz : 0 < (env.uip_periodic i g).uip_len
    · have hne : (env.uip_periodic i g).uip_len ≠ 0 := by omega
      simp [hz, hne, List.count_cons, List.countP_cons, Call.is_conn_output, ih]
    · have he : (env.uip_periodic i g).uip_len = 0 := by omega
      simp [he, List.count_cons, List.countP_cons, Call.is_conn_output, ih]

/-- C6: in an iteration that runs the periodic sweep, the connection sweep
follows the reset of the periodic timeout and no `uip_periodic` call is made
after it; every slot i below UIP_CONNS is serviced after the slots before it,
and the length recorded with the call is `uip_len` as `uip_periodic(i)` left
it; within the sweep, `uip_periodic(i)` is followed by `uip_arp_out` and
then `eth_tapdev_send` exactly when it reported a nonzero output length, and by
nothing otherwise, after which the sweep ends or `uip_periodic(i+1)` is called;
so the number of transmits of the sweep is the number of slots that reported a
nonzero output length. -/
theorem conn_slot_transmits {ε : Type} (cfg : Config) (env : Env ε) (s : TaskState ε)
    (hlen : (after_read cfg env s).uip_len = 0)
    (hreach : timer_timeout_reached s.periodic_timer
      (env.timer_get_tick (after_read cfg env s)) = true) :
    (∃ post, (vuIP_Task_loop cfg env s).1 =
        Call.eth_tapdev_read (read_ret cfg env s) ::
        Call.timer_timeout_reached TimerId.periodic_timer true ::
        Call.timer_reset_timeout TimerId.periodic_timer ::
        (conn_sweep_trace cfg env s ++ post)
      ∧ post.filterMap Call.periodic_index = [])
    ∧ (∀ i, i < cfg.UIP_CONNS →
        ∃ pre post, conn_sweep_trace cfg env s =
            pre ++ Call.uip_periodic i
              (env.uip_periodic i (slot_globals cfg env s i)).uip_len :: post
          ∧ pre.filterMap Call.periodic_index = List.range i)
    ∧ (∀ pre i l post, conn_sweep_trace cfg env s = pre ++ Call.uip_periodic i l :: post →
        ∃ post0,
          post = (if l ≠ 0 then [Call.uip_arp_out, Call.eth_tapdev_send] else []) ++ post0
          ∧ (post0 = [] ∨ ∃ k rest, post0 = Call.uip_periodic (i + 1) k :: rest))
    ∧ (conn_sweep_trace cfg env s).count Call.eth_tapdev_send =
        (conn_sweep_trace cfg env s).countP Call.is_conn_output := by
  refine ⟨?_, conn_sweep_reports cfg env s, ?_, ?_⟩
  · rw [loop_periodic_case cfg env s hlen hreach]
    simp only [periodic_branch, sweeps, conn_sweep_trace]
    split
    · refine ⟨_, by rw [List.append_assoc], ?_⟩
      simp [periodic_index_udp_sweep, periodic_index_arp_aging]
    · exact ⟨_, rfl, periodic_index_arp_aging env _ _⟩
  · intro pre i l post h
    exact conn_sweep_slot cfg env _ _ _ pre i l post h
  · exact count_send_conn_sweep cfg env _ _ _

/-- Witness of C6: no frame, tick 500, four connection slots of which only slot
2 reports output, of length 5: one transmit, after the periodic call of slot 2
and after its `uip_arp_out`. -/
theorem conn_slot_transmits_witness :
    conn_sweep_trace (demo_cfg 4 false 0) scripted
        (demo_state ⟨500, 0, 0, 0, fun i => if i = 2 then 5 else 0, fun _ => 0⟩) =
      [Call.uip_periodic 0 0, Call.uip_periodic 1 0, Call.uip_periodic 2 5,
        Call.uip_arp_out, Call.eth_tapdev_send, Call.uip_periodic 3 0]
    ∧ (conn_sweep_trace (demo_cfg 4 false 0) scripted
        (demo_state ⟨500, 0, 0, 0, fun i => if i = 2 then 5 else 0, fun _ => 0⟩)).count
          Call.eth_tapdev_send = 1 := by
  have h := (conn_slot_transmits (demo_cfg 4 false 0) scripted
    (demo_state ⟨500, 0, 0, 0, fun i => if i = 2 then 5 else 0, fun _ => 0⟩)
    (by decide) (by decide)).2.2.2
  refine ⟨by decide, ?_⟩
  rw [h]
  decide

/-! ## Transmit safety -/

/-- C4: in every iteration, every `eth_tapdev_send` is justified by the stack
entry point called just before it, which reported an output length > 0 on its
return (with at most `uip_arp_out` called in between), and every nonzero output
length reported by `uip_input`, `uip_arp_arpin`, `uip_periodic(i)` or
`uip_udp_periodic(i)` is followed, directly or after `uip_arp_out`, by one
transmit and no second one. -/
theorem transmit_only_on_fresh_output {ε : Type} (cfg : Config) (env : Env ε)
    (s : TaskState ε) :
    (∀ pre post, (vuIP_Task_loop cfg env s).1 = pre ++ Call.eth_tapdev_send :: post →
      ∃ pre0 c l, c.output_len = some l ∧ 0 < l ∧
        (pre = pre0 ++ [c] ∨ pre = pre0 ++ [c, Call.uip_arp_out]))
    ∧ (∀ pre c post l, (vuIP_Task_loop cfg env s).1 = pre ++ c :: post →
        c.output_len = some l → l ≠ 0 →
        ∃ post0, (post = Call.eth_tapdev_send :: post0 ∨
            post = Call.uip_arp_out :: Call.eth_tapdev_send :: post0) ∧
          ∀ rest, post0 ≠ Call.eth_tapdev_send :: rest) :=
  ⟨(tx_disciplined_loop cfg env s).1, (tx_disciplined_loop cfg env s).2.1⟩

/-- Witness of C4: the transmit that answers an IP frame of 60 bytes is justified
by the `uip_input` call that reported 40 bytes of output. -/
theorem transmit_only_on_fresh_output_witness :
    ∃ pre0 c l, c.output_len = some l ∧ 0 < l ∧
      ([Call.eth_tapdev_read 60, Call.uip_arp_ipin, Call.uip_input 40, Call.uip_arp_out] =
          pre0 ++ [c]
        ∨ [Call.eth_tapdev_read 60, Call.uip_arp_ipin, Call.uip_input 40, Call.uip_arp_out] =
          pre0 ++ [c, Call.uip_arp_out]) :=
  (transmit_only_on_fresh_output (demo_cfg 4 false 0) scripted
    (demo_state ⟨0, 60, 0x0800, 40, fun _ => 0, fun _ => 0⟩)).1
    [Call.eth_tapdev_read 60, Call.uip_arp_ipin, Call.uip_input 40, Call.uip_arp_out] []
    (by decide)

/-! ## Priority of frame work over housekeeping -/

theorem frame_path_no_housekeeping {ε : Type} (cfg : Config) (env : Env ε)
    (s : TaskState ε) (hlen : 0 < (after_read cfg env s).uip_len) :
    ∀ c ∈ (vuIP_Task_loop cfg env s).1, c.is_housekeeping = false := by
  rw [loop_frame_case cfg env s hlen]
  intro c hc
  simp only [List.mem_cons] at hc
  rcases hc with rfl | hc
  · rfl
  · exact frame_branch_forall cfg env _ (fun c => c.is_housekeeping = false)
      rfl (fun _ => rfl) (fun _ => rfl) rfl rfl c hc

/-- C7: in an iteration whose read stores a length > 0 into `uip_len`, whatever
the two timeouts hold, the loop calls none of `uip_periodic`,
`uip_udp_periodic`, `uip_arp_timer`, resets and queries no timeout, and leaves
both timeouts as they were; for an IP frame whose output length is 0 on return
from `uip_input` the calls are the read, `uip_arp_ipin` and `uip_input` and
there is no transmit; the next iteration starts with the next read. -/
theorem frame_defers_housekeeping {ε : Type} (cfg : Config) (env : Env ε)
    (s : TaskState ε) (hlen : 0 < (after_read cfg env s).uip_len) :
    (∀ c ∈ (vuIP_Task_loop cfg env s).1, c.is_housekeeping = false)
    ∧ (∀ c ∈ (vuIP_Task_loop cfg env s).1, ∀ t b, c ≠ Call.timer_timeout_reached t b)
    ∧ (vuIP_Task_loop cfg env s).2.periodic_timer = s.periodic_timer
    ∧ (vuIP_Task_loop cfg env s).2.arp_timer = s.arp_timer
    ∧ (env.BUF_type (after_read cfg env s) = cfg.htons cfg.UIP_ETHTYPE_IP →
        (env.uip_input (env.uip_arp_ipin (after_read cfg env s))).uip_len = 0 →
        (vuIP_Task_loop cfg env s).1 =
          [Call.eth_tapdev_read (read_ret cfg env s), Call.uip_arp_ipin, Call.uip_input 0]
        ∧ (vuIP_Task_loop cfg env s).1.count Call.eth_tapdev_send = 0)
    ∧ (∃ rest, (vuIP_Task_loop cfg env (vuIP_Task_loop cfg env s).2).1 =
        Call.eth_tapdev_read (read_ret cfg env (vuIP_Task_loop cfg env s).2) :: rest) := by
  refine ⟨?_, ?_, ?_, ?_, ?_, loop_starts_with_read cfg env _⟩
  · exact frame_path_no_housekeeping cfg env s hlen
  · rw [loop_frame_case cfg env s hlen]
    intro c hc
    simp only [List.mem_cons] at hc
    rcases hc with rfl | hc
    · intro t b h; cases h
    · exact frame_branch_forall cfg env _
        (fun c => ∀ t b, c ≠ Call.timer_timeout_reached t b)
        (fun t b h => by cases h) (fun _ t b h => by cases h) (fun _ t b h => by cases h)
        (fun t b h => by cases h) (fun t b h => by cases h) c hc
  · rw [loop_frame_case cfg env s hlen]
  · rw [loop_frame_case cfg env s hlen]
  · intro hip hz
    have h := (ip_path_trace_eq cfg env s hlen hip)
    rw [hz] at h
    simp only [Nat.lt_irrefl, if_false] at h
    rw [h]
    exact ⟨rfl, by simp [List.count_cons]⟩

/-- Witness of C7: an IP frame of 60 bytes that produces no output, read at tick
20000 when both timeouts are long reached. -/
theorem frame_defers_housekeeping_witness :
    (vuIP_Task_loop (demo_cfg 4 true 2) scripted
        (demo_state ⟨20000, 60, 0x0800, 0, fun _ => 9, fun _ => 9⟩)).1 =
      [Call.eth_tapdev_read 60, Call.uip_arp_ipin, Call.uip_input 0]
    ∧ timer_timeout_reached (timer_start_timeout 0 500) 20000 = true
    ∧ timer_timeout_reached (timer_start_timeout 0 10000) 20000 = true := by
  have h := (frame_defers_housekeeping (demo_cfg 4 true 2) scripted
    (demo_state ⟨20000, 60, 0x0800, 0, fun _ => 9, fun _ => 9⟩) (by decide)).2.2.2.2.1
    (by decide) (by decide)
  refine ⟨?_, by decide, by decide⟩
  simpa [scripted, read_ret, demo_state] using h.1

/-! ## Idle iterations -/

theorem loop_periodic_trace {ε : Type} (cfg : Config) (env : Env ε) (s : TaskState ε)
    (hlen : (after_read cfg env s).uip_len = 0)
    (hreach : timer_timeout_reached s.periodic_timer
      (env.timer_get_tick (after_read cfg env s)) = true) :
    (vuIP_Task_loop cfg env s).1 =
      Call.eth_tapdev_read (read_ret cfg env s) ::
      Call.timer_timeout_reached TimerId.periodic_timer true ::
      Call.timer_reset_timeout TimerId.periodic_timer ::
      ((sweeps cfg env (after_read cfg env s)).1 ++
        (arp_aging env (aging_point cfg env s) s.arp_timer).1) := by
  rw [loop_periodic_case cfg env s hlen hreach]
  rfl

/-- C8: in an iteration whose read yields no frame and whose periodic timeout is
not reached, the calls are the read and the query of the periodic timeout and
nothing else: no stack call, no transmit, no reset; the state is left as the
read left it and the next iteration starts with the next read.  And in any
iteration, the periodic timeout is reset (which opens the sweep) if and only if
the read yielded no frame and the periodic timeout is reached. -/
theorem idle_iteration {ε : Type} (cfg : Config) (env : Env ε) (s : TaskState ε) :
    ((after_read cfg env s).uip_len = 0 →
      timer_timeout_reached s.periodic_timer
        (env.timer_get_tick (after_read cfg env s)) = false →
      (vuIP_Task_loop cfg env s).1 =
          [Call.eth_tapdev_read (read_ret cfg env s),
            Call.timer_timeout_reached TimerId.periodic_timer false]
        ∧ (∀ c ∈ (vuIP_Task_loop cfg env s).1, c.is_stack_call = false)
        ∧ Call.eth_tapdev_send ∉ (vuIP_Task_loop cfg env s).1
        ∧ (∀ c ∈ (vuIP_Task_loop cfg env s).1, c.is_housekeeping = false)
        ∧ (vuIP_Task_loop cfg env s).2 = { s with g := after_read cfg env s }
        ∧ (∃ rest, (vuIP_Task_loop cfg env (vuIP_Task_loop cfg env s).2).1 =
            Call.eth_tapdev_read (read_ret cfg env (vuIP_Task_loop cfg env s).2) :: rest))
    ∧ (Call.timer_reset_timeout TimerId.periodic_timer ∈ (vuIP_Task_loop cfg env s).1 ↔
        ((after_read cfg env s).uip_len = 0 ∧
          timer_timeout_reached s.periodic_timer
            (env.timer_get_tick (after_read cfg env s)) = true))
    ∧ ((∃ post, (vuIP_Task_loop cfg env s).1 =
          Call.eth_tapdev_read (read_ret cfg env s) ::
          Call.timer_timeout_reached TimerId.periodic_timer true ::
          Call.timer_reset_timeout TimerId.periodic_timer ::
          (conn_sweep_trace cfg env s ++ post)) ↔
        ((after_read cfg env s).uip_len = 0 ∧
          timer_timeout_reached s.periodic_timer
            (env.timer_get_tick (after_read cfg env s)) = true)) := by
  have hmem : Call.timer_reset_timeout TimerId.periodic_timer ∈ (vuIP_Task_loop cfg env s).1 →
      ((after_read cfg env s).uip_len = 0 ∧
        timer_timeout_reached s.periodic_timer
          (env.timer_get_tick (after_read cfg env s)) = true) := by
    intro hin
    by_cases hlen : 0 < (after_read cfg env s).uip_len
    · exfalso
      have := (frame_path_no_housekeeping cfg env s hlen) _ hin
      simp [Call.is_housekeeping] at this
    · have hz : (after_read cfg env s).uip_len = 0 := by omega
      refine ⟨hz, ?_⟩
      by_contra hr
      have hr2 : timer_timeout_reached s.periodic_timer
          (env.timer_get_tick (after_read cfg env s)) = false := by
        simpa using hr
      rw [loop_idle_case cfg env s hz hr2] at hin
      simp at hin
  refine ⟨?_, ⟨hmem, ?_⟩, ⟨?_, ?_⟩⟩
  · intro hlen hreach
    refine ⟨?_, ?_, ?_, ?_, ?_, loop_starts_with_read cfg env _⟩
    · rw [loop_idle_case cfg env s hlen hreach]
    · rw [loop_idle_case cfg env s hlen hreach]; simp [Call.is_stack_call]
    · rw [loop_idle_case cfg env s hlen hreach]; simp
    · rw [loop_idle_case cfg env s hlen hreach]; simp [Call.is_housekeeping]
    · rw [loop_idle_case cfg env s hlen hreach]
  · rintro ⟨hlen, hreach⟩
    rw [loop_periodic_trace cfg env s hlen hreach]
    simp
  · rintro ⟨post, hpost⟩
    apply hmem
    rw [hpost]
    simp
  · rintro ⟨hlen, hreach⟩
    rw [loop_periodic_trace cfg env s hlen hreach]
    simp only [sweeps, conn_sweep_trace]
    split
    · exact ⟨_, by rw [List.append_assoc]⟩
    · exact ⟨_, rfl⟩

/-- Witness of C8: no frame at tick 499, one tick before the periodic timeout
started at tick 0 is reached. -/
theorem idle_iteration_witness :
    (vuIP_Task_loop (demo_cfg 4 true 2) scripted
        (demo_state ⟨499, 0, 0, 0, fun _ => 9, fun _ => 9⟩)).1 =
      [Call.eth_tapdev_read 0, Call.timer_timeout_reached TimerId.periodic_timer false] := by
  have h := ((idle_iteration (demo_cfg 4 true 2) scripted
    (demo_state ⟨499, 0, 0, 0, fun _ => 9, fun _ => 9⟩)).1 (by decide) (by decide)).1
  simpa [scripted, read_ret, demo_state] using h

/-! ## Address-table aging -/

theorem sweeps_no_aging {ε : Type} (cfg : Config) (env : Env ε) (g : Globals ε) :
    ∀ c ∈ (sweeps cfg env g).1,
      c ≠ Call.uip_arp_timer ∧ c ≠ Call.timer_reset_timeout TimerId.arp_timer :=
  sweeps_forall cfg env g
    (fun c => c ≠ Call.uip_arp_timer ∧ c ≠ Call.timer_reset_timeout TimerId.arp_timer)
    (fun _ _ => ⟨by simp, by simp⟩) (fun _ _ => ⟨by simp, by simp⟩)
    ⟨by simp, by simp⟩ ⟨by simp, by simp⟩

theorem loop_periodic_arp_timer {ε : Type} (cfg : Config) (env : Env ε) (s : TaskState ε)
    (hlen : (after_read cfg env s).uip_len = 0)
    (hreach : timer_timeout_reached s.periodic_timer
      (env.timer_get_tick (after_read cfg env s)) = true) :
    (vuIP_Task_loop cfg env s).2.arp_timer =
      (arp_aging env (aging_point cfg env s) s.arp_timer).2.2 := by
  rw [loop_periodic_case cfg env s hlen hreach]
  rfl

theorem aging_not_in_frame_or_idle {ε : Type} (cfg : Config) (env : Env ε) (s : TaskState ε)
    (h : ¬ ((after_read cfg env s).uip_len = 0 ∧
      timer_timeout_reached s.periodic_timer
        (env.timer_get_tick (after_read cfg env s)) = true)) :
    Call.uip_arp_timer ∉ (vuIP_Task_loop cfg env s).1
    ∧ Call.timer_reset_timeout TimerId.arp_timer ∉ (vuIP_Task_loop cfg env s).1
    ∧ (vuIP_Task_loop cfg env s).2.arp_timer = s.arp_timer := by
  by_cases hlen : 0 < (after_read cfg env s).uip_len
  · refine ⟨?_, ?_, ?_⟩
    · intro hin
      have := frame_path_no_housekeeping cfg env s hlen _ hin
      simp [Call.is_housekeeping] at this
    · intro hin
      have := frame_path_no_housekeeping cfg env s hlen _ hin
      simp [Call.is_housekeeping] at this
    · rw [loop_frame_case cfg env s hlen]
  · have hz : (after_read cfg env s).uip_len = 0 := by omega
    have hr : timer_timeout_reached s.periodic_timer
        (env.timer_get_tick (after_read cfg env s)) = false := by
      cases hb : timer_timeout_reached s.periodic_timer
        (env.timer_get_tick (after_read cfg env s))
      · rfl
      · exact absurd ⟨hz, hb⟩ h
    rw [loop_idle_case cfg env s hz hr]
    simp

/-- C10: in every iteration `uip_arp_timer` is called at most once; it is called
exactly when the iteration takes the periodic branch (no frame, periodic
timeout reached) and the aging timeout is reached when queried after both
sweeps; it is then the last call of the iteration, made after the sweeps, the
query of the aging timeout and the reset of the aging timeout, in that order,
and the aging timeout restarts from the tick of that point; when it is not
called, the aging timeout is neither reset nor changed. -/
theorem arp_aging_discipline {ε : Type} (cfg : Config) (env : Env ε) (s : TaskState ε) :
    (vuIP_Task_loop cfg env s).1.count Call.uip_arp_timer ≤ 1
    ∧ (Call.uip_arp_timer ∈ (vuIP_Task_loop cfg env s).1 ↔
        ((after_read cfg env s).uip_len = 0
          ∧ timer_timeout_reached s.periodic_timer
              (env.timer_get_tick (after_read cfg env s)) = true
          ∧ timer_timeout_reached s.arp_timer
              (env.timer_get_tick (aging_point cfg env s)) = true))
    ∧ (Call.uip_arp_timer ∈ (vuIP_Task_loop cfg env s).1 →
        (vuIP_Task_loop cfg env s).1 =
            Call.eth_tapdev_read (read_ret cfg env s) ::
            Call.timer_timeout_reached TimerId.periodic_timer true ::
            Call.timer_reset_timeout TimerId.periodic_timer ::
            ((sweeps cfg env (after_read cfg env s)).1 ++
              [Call.timer_timeout_reached TimerId.arp_timer true,
               Call.timer_reset_timeout TimerId.arp_timer,
               Call.uip_arp_timer])
          ∧ (∀ c ∈ (sweeps cfg env (after_read cfg env s)).1,
              c ≠ Call.uip_arp_timer ∧ c ≠ Call.timer_reset_timeout TimerId.arp_timer)
          ∧ (vuIP_Task_loop cfg env s).2.arp_timer =
              timer_reset_timeout s.arp_timer (env.timer_get_tick (aging_point cfg env s)))
    ∧ (Call.uip_arp_timer ∉ (vuIP_Task_loop cfg env s).1 →
        Call.timer_reset_timeout TimerId.arp_timer ∉ (vuIP_Task_loop cfg env s).1
          ∧ (vuIP_Task_loop cfg env s).2.arp_timer = s.arp_timer) := by
  by_cases hp : (after_read cfg env s).uip_len = 0 ∧
      timer_timeout_reached s.periodic_timer
        (env.timer_get_tick (after_read cfg env s)) = true
  · obtain ⟨hlen, hreach⟩ := hp
    have htr := loop_periodic_trace cfg env s hlen hreach
    have hst := loop_periodic_arp_timer cfg env s hlen hreach
    have hsw := sweeps_no_aging cfg env (after_read cfg env s)
    have hsw1 : Call.uip_arp_timer ∉ (sweeps cfg env (after_read cfg env s)).1 :=
      fun hin => (hsw _ hin).1 rfl
    have hsw2 : Call.timer_reset_timeout TimerId.arp_timer ∉
        (sweeps cfg env (after_read cfg env s)).1 :=
      fun hin => (hsw _ hin).2 rfl
    cases hag : timer_timeout_reached s.arp_timer (env.timer_get_tick (aging_point cfg env s))
    · have hA : arp_aging env (aging_point cfg env s) s.arp_timer =
          ([Call.timer_timeout_reached TimerId.arp_timer false],
            aging_point cfg env s, s.arp_timer) := by
        simp [arp_aging, hag]
      rw [hA] at htr hst
      have hnot : Call.uip_arp_timer ∉ (vuIP_Task_loop cfg env s).1 := by
        rw [htr]; simp [hsw1]
      refine ⟨?_, ?_, ?_, ?_⟩
      · rw [List.count_eq_zero_of_not_mem hnot]; exact Nat.zero_le _
      · constructor
        · intro hin; exact absurd hin hnot
        · rintro ⟨_, _, h⟩; cases h
      · intro hin; exact absurd hin hnot
      · intro _
        refine ⟨?_, hst⟩
        rw [htr]; simp [hsw2]
    · have hA : arp_aging env (aging_point cfg env s) s.arp_timer =
          ([Call.timer_timeout_reached TimerId.arp_timer true,
            Call.timer_reset_timeout TimerId.arp_timer, Call.uip_arp_timer],
            env.uip_arp_timer (aging_point cfg env s),
            timer_reset_timeout s.arp_timer
              (env.timer_get_tick (aging_point cfg env s))) := by
        simp [arp_aging, hag]
      rw [hA] at htr hst
      have hin : Call.uip_arp_timer ∈ (vuIP_Task_loop cfg env s).1 := by
        rw [htr]; simp
      refine ⟨?_, ?_, ?_, ?_⟩
      · rw [htr]
        simp [List.count_cons, List.count_append, List.count_eq_zero_of_not_mem hsw1]
      · exact ⟨fun _ => ⟨hlen, hreach, rfl⟩, fun _ => hin⟩
      · intro _; exact ⟨htr, hsw, hst⟩
      · intro hnot; exact absurd hin hnot
  · obtain ⟨h1, h2, h3⟩ := aging_not_in_frame_or_idle cfg env s hp
    refine ⟨?_, ?_, ?_, ?_⟩
    · rw [List.count_eq_zero_of_not_mem h1]; exact Nat.zero_le _
    · constructor
      · intro hin; exact absurd hin h1
      · rintro ⟨ha, hb, _⟩; exact absurd ⟨ha, hb⟩ hp
    · intro hin; exact absurd hin h1
    · intro _; exact ⟨h2, h3⟩

/-- Witness of C10: no frame at tick 10000 with both timeouts started at tick 0,
two connection slots and one datagram slot, none reporting output: the aging
call closes the iteration and the aging timeout restarts at tick 10000. -/
theorem arp_aging_discipline_witness :
    (vuIP_Task_loop (demo_cfg 2 true 1) scripted
        (demo_state ⟨10000, 0, 0, 0, fun _ => 0, fun _ => 0⟩)).1 =
      [Call.eth_tapdev_read 0,
        Call.timer_timeout_reached TimerId.periodic_timer true,
        Call.timer_reset_timeout TimerId.periodic_timer,
        Call.uip_periodic 0 0, Call.uip_periodic 1 0, Call.uip_udp_periodic 0 0,
        Call.timer_timeout_reached TimerId.arp_timer true,
        Call.timer_reset_timeout TimerId.arp_timer,
        Call.uip_arp_timer]
    ∧ (vuIP_Task_loop (demo_cfg 2 true 1) scripted
        (demo_state ⟨10000, 0, 0, 0, fun _ => 0, fun _ => 0⟩)).2.arp_timer =
      { start := 10000, count := 10000 } := by
  have h := (arp_aging_discipline (demo_cfg 2 true 1) scripted
    (demo_state ⟨10000, 0, 0, 0, fun _ => 0, fun _ => 0⟩)).2.2.1 (by decide)
  refine ⟨?_, ?_⟩
  · rw [h.1]; decide
  · rw [h.2.2]; decide

/-! ## Lengths that are not frame lengths -/

theorem store_uip_len_eq_zero_iff (cfg : Config) (r : Int) :
    store_uip_len cfg r = 0 ↔ (2 : Int) ^ cfg.uip_len_bits ∣ r := by
  have hpos : (0 : Int) < (2 : Int) ^ cfg.uip_len_bits := by positivity
  have hnn : 0 ≤ r % (2 : Int) ^ cfg.uip_len_bits := Int.emod_nonneg _ (ne_of_gt hpos)
  unfold store_uip_len
  rw [Int.toNat_eq_zero, Int.dvd_iff_emod_eq_zero]
  constructor
  · intro h; omega
  · intro h; omega

theorem conn_sweep_read_zero {ε : Type} (cfg : Config) (env : Env ε) (n : Nat) :
    ∀ (i : Nat) (g : Globals ε),
      conn_sweep cfg (read_zero env) n i g = conn_sweep cfg env n i g := by
  induction n with
  | zero => intro i g; rfl
  | succ n ih =>
    intro i g
    simp only [conn_sweep]
    have h1 : (read_zero env).uip_periodic i g = env.uip_periodic i g := rfl
    have h2 : ∀ g0, arp_out_and_send cfg (read_zero env) g0 = arp_out_and_send cfg env g0 :=
      fun _ => rfl
    rw [h1, h2, ih]

theorem udp_sweep_read_zero {ε : Type} (cfg : Config) (env : Env ε) (n : Nat) :
    ∀ (i : Nat) (g : Globals ε),
      udp_sweep cfg (read_zero env) n i g = udp_sweep cfg env n i g := by
  induction n with
  | zero => intro i g; rfl
  | succ n ih =>
    intro i g
    simp only [udp_sweep]
    have h1 : (read_zero env).uip_udp_periodic i g = env.uip_udp_periodic i g := rfl
    have h2 : ∀ g0, arp_out_and_send cfg (read_zero env) g0 = arp_out_and_send cfg env g0 :=
      fun _ => rfl
    rw [h1, h2, ih]

theorem periodic_branch_read_zero {ε : Type} (cfg : Config) (env : Env ε)
    (s : TaskState ε) :
    periodic_branch cfg (read_zero env) s = periodic_branch cfg env s := by
  have hs : ∀ g, sweeps cfg (read_zero env) g = sweeps cfg env g := by
    intro g
    simp only [sweeps, conn_sweep_read_zero, udp_sweep_read_zero]
  have ha : ∀ g t, arp_aging (read_zero env) g t = arp_aging env g t := fun _ _ => rfl
  have ht : ∀ g, (read_zero env).timer_get_tick g = env.timer_get_tick g := fun _ => rfl
  simp only [periodic_branch, hs, ha, ht]

theorem after_read_read_zero {ε : Type} (cfg : Config) (env : Env ε) (s : TaskState ε)
    (h : store_uip_len cfg (read_ret cfg env s) = 0) :
    after_read cfg (read_zero env) s = after_read cfg env s := by
  simp only [after_read, read_ret, read_zero, store_uip_len_zero]
  simp only [read_ret] at h
  rw [h]

theorem no_frame_path_as_zero {ε : Type} (cfg : Config) (env : Env ε) (s : TaskState ε)
    (h : store_uip_len cfg (read_ret cfg env s) = 0) :
    (vuIP_Task_loop cfg env s).1.tail = (vuIP_Task_loop cfg (read_zero env) s).1.tail
    ∧ (vuIP_Task_loop cfg env s).2 = (vuIP_Task_loop cfg (read_zero env) s).2 := by
  have hz : (after_read cfg env s).uip_len = 0 := h
  have hz0 : (after_read cfg (read_zero env) s).uip_len = 0 := by
    rw [after_read_read_zero cfg env s h]; exact hz
  have ht : ∀ g, (read_zero env).timer_get_tick g = env.timer_get_tick g := fun _ => rfl
  cases hr : timer_timeout_reached s.periodic_timer
      (env.timer_get_tick (after_read cfg env s))
  · have hr0 : timer_timeout_reached s.periodic_timer
        ((read_zero env).timer_get_tick (after_read cfg (read_zero env) s)) = false := by
      rw [ht, after_read_read_zero cfg env s h]; exact hr
    rw [loop_idle_case cfg env s hz hr, loop_idle_case cfg (read_zero env) s hz0 hr0,
      after_read_read_zero cfg env s h]
    exact ⟨rfl, rfl⟩
  · have hr0 : timer_timeout_reached s.periodic_timer
        ((read_zero env).timer_get_tick (after_read cfg (read_zero env) s)) = true := by
      rw [ht, after_read_read_zero cfg env s h]; exact hr
    rw [loop_periodic_case cfg env s hz hr, loop_periodic_case cfg (read_zero env) s hz0 hr0,
      after_read_read_zero cfg env s h, periodic_branch_read_zero]
    exact ⟨rfl, rfl⟩

theorem no_dispatch_without_frame {ε : Type} (cfg : Config) (env : Env ε) (s : TaskState ε)
    (hz : (after_read cfg env s).uip_len = 0) :
    ∀ c ∈ (vuIP_Task_loop cfg env s).1, c.is_frame_dispatch = false := by
  cases hr : timer_timeout_reached s.periodic_timer
      (env.timer_get_tick (after_read cfg env s))
  · rw [loop_idle_case cfg env s hz hr]
    simp [Call.is_frame_dispatch]
  · rw [loop_periodic_trace cfg env s hz hr]
    intro c hc
    simp only [List.mem_cons, List.mem_append] at hc
    rcases hc with rfl | rfl | rfl | hc | hc
    · rfl
    · rfl
    · rfl
    · exact sweeps_forall cfg env _ (fun c => c.is_frame_dispatch = false)
        (fun _ _ => rfl) (fun _ _ => rfl) rfl rfl c hc
    · unfold arp_aging at hc
      split at hc
      · simp only [List.mem_cons, List.mem_singleton, List.not_mem_nil, or_false] at hc
        rcases hc with rfl | rfl | rfl <;> rfl
      · simp only [List.mem_singleton] at hc
        rw [hc]; rfl

/-- C9, as the claim states it, fails: with the 16-bit `uip_len` of uIP a read
that returns -1 stores 65535 into `uip_len`, and a read that returns 65596,
more than `uip_len` and any Ethernet frame can hold, stores 60; in both cases
the iteration classifies the buffer and dispatches it to the stack as an IP
frame, where a read that returns 0 only queries the periodic timeout. -/
theorem negative_length_is_dispatched :
    (after_read (demo_cfg 4 false 0) scripted
        (demo_state ⟨0, -1, 0x0800, 40, fun _ => 0, fun _ => 0⟩)).uip_len = 65535
    ∧ (vuIP_Task_loop (demo_cfg 4 false 0) scripted
        (demo_state ⟨0, -1, 0x0800, 40, fun _ => 0, fun _ => 0⟩)).1 =
      [Call.eth_tapdev_read (-1), Call.uip_arp_ipin, Call.uip_input 40,
        Call.uip_arp_out, Call.eth_tapdev_send]
    ∧ (after_read (demo_cfg 4 false 0) scripted
        (demo_state ⟨0, 65596, 0x0800, 40, fun _ => 0, fun _ => 0⟩)).uip_len = 60
    ∧ (vuIP_Task_loop (demo_cfg 4 false 0) scripted
        (demo_state ⟨0, 65596, 0x0800, 40, fun _ => 0, fun _ => 0⟩)).1 =
      [Call.eth_tapdev_read 65596, Call.uip_arp_ipin, Call.uip_input 40,
        Call.uip_arp_out, Call.eth_tapdev_send]
    ∧ (vuIP_Task_loop (demo_cfg 4 false 0) scripted
        (demo_state ⟨0, 0, 0x0800, 40, fun _ => 0, fun _ => 0⟩)).1 =
      [Call.eth_tapdev_read 0, Call.timer_timeout_reached TimerId.periodic_timer false] := by
  refine ⟨by decide, by decide, by decide, by decide, by decide⟩

/-- C9, amended: the iteration takes the no-frame path exactly when the value
stored into `uip_len` is 0, that is when the value returned by the read is a
multiple of 2 ^ width; it then makes no call of the frame path and continues
with the query of the periodic timeout, and what follows the read is what
follows a read that returns 0.  Every other return value, negative or not, is
stored as a length > 0 and handed to the frame classification. -/
theorem stored_length_decides_path {ε : Type} (cfg : Config) (env : Env ε)
    (s : TaskState ε) :
    ((after_read cfg env s).uip_len = 0 ↔
        (2 : Int) ^ cfg.uip_len_bits ∣ read_ret cfg env s)
    ∧ ((after_read cfg env s).uip_len = 0 →
        (∀ c ∈ (vuIP_Task_loop cfg env s).1, c.is_frame_dispatch = false)
        ∧ (∃ b rest, (vuIP_Task_loop cfg env s).1 =
            Call.eth_tapdev_read (read_ret cfg env s) ::
            Call.timer_timeout_reached TimerId.periodic_timer b :: rest)
        ∧ (vuIP_Task_loop cfg env s).1.tail = (vuIP_Task_loop cfg (read_zero env) s).1.tail
        ∧ (vuIP_Task_loop cfg env s).2 = (vuIP_Task_loop cfg (read_zero env) s).2)
    ∧ ((after_read cfg env s).uip_len ≠ 0 →
        vuIP_Task_loop cfg env s =
          (Call.eth_tapdev_read (read_ret cfg env s) ::
            (frame_branch cfg env (after_read cfg env s)).1,
           { s with g := (frame_branch cfg env (after_read cfg env s)).2 })) := by
  refine ⟨store_uip_len_eq_zero_iff cfg _, ?_, ?_⟩
  · intro hz
    refine ⟨no_dispatch_without_frame cfg env s hz, ?_,
      (no_frame_path_as_zero cfg env s hz).1, (no_frame_path_as_zero cfg env s hz).2⟩
    cases hr : timer_timeout_reached s.periodic_timer
        (env.timer_get_tick (after_read cfg env s))
    · rw [loop_idle_case cfg env s hz hr]; exact ⟨_, _, rfl⟩
    · rw [loop_periodic_case cfg env s hz hr]; exact ⟨_, _, rfl⟩
  · intro hne
    exact loop_frame_case cfg env s (Nat.pos_of_ne_zero hne)

/-- Witness of the amended C9: a read that returns -65536 with a 16-bit
`uip_len` stores 0 and the iteration is the idle one. -/
theorem stored_length_decides_path_witness :
    (vuIP_Task_loop (demo_cfg 4 false 0) scripted
        (demo_state ⟨0, -65536, 0x0800, 40, fun _ => 0, fun _ => 0⟩)).1 =
      [Call.eth_tapdev_read (-65536),
        Call.timer_timeout_reached TimerId.periodic_timer false]
    ∧ ∀ c ∈ (vuIP_Task_loop (demo_cfg 4 false 0) scripted
        (demo_state ⟨0, -65536, 0x0800, 40, fun _ => 0, fun _ => 0⟩)).1,
      c.is_frame_dispatch = false :=
  ⟨by decide,
   ((stored_length_decides_path (demo_cfg 4 false 0) scripted
      (demo_state ⟨0, -65536, 0x0800, 40, fun _ => 0, fun _ => 0⟩)).2.1 (by decide)).1⟩

/-! ## Cadence of the aging calls -/

theorem reached_le (t : _timeout) (now : Nat) (h : timer_timeout_reached t now = true) :
    t.start + t.count ≤ now := by
  unfold timer_timeout_reached at h
  have h2 : (t.count : Int) ≤ (now : Int) - (t.start : Int) := of_decide_eq_true h
  omega

theorem arp_timer_step {ε : Type} (cfg : Config) (env : Env ε) (s : TaskState ε) :
    (Call.uip_arp_timer ∈ (vuIP_Task_loop cfg env s).1 →
      timer_timeout_reached s.arp_timer (env.timer_get_tick (aging_point cfg env s)) = true
      ∧ (vuIP_Task_loop cfg env s).2.arp_timer =
          timer_reset_timeout s.arp_timer (env.timer_get_tick (aging_point cfg env s))
      ∧ (vuIP_Task_loop cfg env s).2.g = env.uip_arp_timer (aging_point cfg env s)
      ∧ Call.timer_reset_timeout TimerId.arp_timer ∈ (vuIP_Task_loop cfg env s).1)
    ∧ (Call.uip_arp_timer ∉ (vuIP_Task_loop cfg env s).1 →
      (vuIP_Task_loop cfg env s).2.arp_timer = s.arp_timer
      ∧ Call.timer_reset_timeout TimerId.arp_timer ∉ (vuIP_Task_loop cfg env s).1) := by
  by_cases hp : (after_read cfg env s).uip_len = 0 ∧
      timer_timeout_reached s.periodic_timer
        (env.timer_get_tick (after_read cfg env s)) = true
  · obtain ⟨hlen, hreach⟩ := hp
    have htr := loop_periodic_trace cfg env s hlen hreach
    have hst := loop_periodic_arp_timer cfg env s hlen hreach
    have hg : (vuIP_Task_loop cfg env s).2.g =
        (arp_aging env (aging_point cfg env s) s.arp_timer).2.1 := by
      rw [loop_periodic_case cfg env s hlen hreach]; rfl
    have hsw := sweeps_no_aging cfg env (after_read cfg env s)
    have hsw1 : Call.uip_arp_timer ∉ (sweeps cfg env (after_read cfg env s)).1 :=
      fun hin => (hsw _ hin).1 rfl
    have hsw2 : Call.timer_reset_timeout TimerId.arp_timer ∉
        (sweeps cfg env (after_read cfg env s)).1 :=
      fun hin => (hsw _ hin).2 rfl
    cases hag : timer_timeout_reached s.arp_timer (env.timer_get_tick (aging_point cfg env s))
    · have hA : arp_aging env (aging_point cfg env s) s.arp_timer =
          ([Call.timer_timeout_reached TimerId.arp_timer false],
            aging_point cfg env s, s.arp_timer) := by
        simp [arp_aging, hag]
      rw [hA] at htr hst
      have hnot : Call.uip_arp_timer ∉ (vuIP_Task_loop cfg env s).1 := by
        rw [htr]; simp [hsw1]
      refine ⟨fun hin => absurd hin hnot, fun _ => ⟨hst, ?_⟩⟩
      rw [htr]; simp [hsw2]
    · have hA : arp_aging env (aging_point cfg env s) s.arp_timer =
          ([Call.timer_timeout_reached TimerId.arp_timer true,
            Call.timer_reset_timeout TimerId.arp_timer, Call.uip_arp_timer],
            env.uip_arp_timer (aging_point cfg env s),
            timer_reset_timeout s.arp_timer
              (env.timer_get_tick (aging_point cfg env s))) := by
        simp [arp_aging, hag]
      rw [hA] at htr hst hg
      have hin : Call.uip_arp_timer ∈ (vuIP_Task_loop cfg env s).1 := by
        rw [htr]; simp
      have hrs : Call.timer_reset_timeout TimerId.arp_timer ∈ (vuIP_Task_loop cfg env s).1 := by
        rw [htr]; simp
      exact ⟨fun _ => ⟨rfl, hst, hg, hrs⟩, fun hnot => absurd hin hnot⟩
  · obtain ⟨h1, h2, h3⟩ := aging_not_in_frame_or_idle cfg env s hp
    exact ⟨fun hin => absurd hin h1, fun _ => ⟨h3, h2⟩⟩

theorem periodic_timer_step {ε : Type} (cfg : Config) (env : Env ε) (s : TaskState ε) :
    (Call.timer_reset_timeout TimerId.periodic_timer ∈ (vuIP_Task_loop cfg env s).1 →
      (vuIP_Task_loop cfg env s).2.periodic_timer =
        timer_reset_timeout s.periodic_timer (env.timer_get_tick (after_read cfg env s)))
    ∧ (Call.timer_reset_timeout TimerId.periodic_timer ∉ (vuIP_Task_loop cfg env s).1 →
      (vuIP_Task_loop cfg env s).2.periodic_timer = s.periodic_timer) := by
  by_cases hlen : 0 < (after_read cfg env s).uip_len
  · constructor
    · intro hin
      have := frame_path_no_housekeeping cfg env s hlen _ hin
      simp [Call.is_housekeeping] at this
    · intro _
      rw [loop_frame_case cfg env s hlen]
  · have hz : (after_read cfg env s).uip_len = 0 := by omega
    cases hr : timer_timeout_reached s.periodic_timer
        (env.timer_get_tick (after_read cfg env s))
    · rw [loop_idle_case cfg env s hz hr]
      exact ⟨fun hin => by simp at hin, fun _ => rfl⟩
    · constructor
      · intro _
        rw [loop_periodic_case cfg env s hz hr]
        rfl
      · intro hnot
        exfalso
        apply hnot
        rw [loop_periodic_trace cfg env s hz hr]
        simp

theorem timer_counts_step {ε : Type} (cfg : Config) (env : Env ε) (s : TaskState ε) :
    (vuIP_Task_loop cfg env s).2.arp_timer.count = s.arp_timer.count
    ∧ (vuIP_Task_loop cfg env s).2.periodic_timer.count = s.periodic_timer.count := by
  constructor
  · by_cases hin : Call.uip_arp_timer ∈ (vuIP_Task_loop cfg env s).1
    · rw [((arp_timer_step cfg env s).1 hin).2.1]; rfl
    · rw [((arp_timer_step cfg env s).2 hin).1]
  · by_cases hin : Call.timer_reset_timeout TimerId.periodic_timer ∈
        (vuIP_Task_loop cfg env s).1
    · rw [(periodic_timer_step cfg env s).1 hin]; rfl
    · rw [(periodic_timer_step cfg env s).2 hin]

theorem timer_counts_run {ε : Type} (cfg : Config) (env : Env ε) (n : Nat) :
    ∀ s : TaskState ε,
      (vuIP_Task_run cfg env n s).arp_timer.count = s.arp_timer.count
      ∧ (vuIP_Task_run cfg env n s).periodic_timer.count = s.periodic_timer.count := by
  induction n with
  | zero => intro s; exact ⟨rfl, rfl⟩
  | succ n ih =>
    intro s
    simp only [vuIP_Task_run]
    rw [(ih _).1, (ih _).2]
    exact timer_counts_step cfg env s

theorem call_ticks_spaced {ε : Type} (cfg : Config) (env : Env ε) (n : Nat) :
    ∀ s : TaskState ε,
      (∀ t ∈ arp_timer_call_ticks cfg env n s, s.arp_timer.start + s.arp_timer.count ≤ t)
      ∧ List.Pairwise (fun a b => a + s.arp_timer.count ≤ b)
          (arp_timer_call_ticks cfg env n s) := by
  induction n with
  | zero =>
    intro s
    simp [arp_timer_call_ticks]
  | succ n ih =>
    intro s
    obtain ⟨ih1, ih2⟩ := ih (vuIP_Task_loop cfg env s).2
    have hcount := (timer_counts_step cfg env s).1
    rw [hcount] at ih1 ih2
    simp only [arp_timer_call_ticks, arp_timer_call_tick]
    by_cases hin : Call.uip_arp_timer ∈ (vuIP_Task_loop cfg env s).1
    · obtain ⟨hre, hst, _⟩ := (arp_timer_step cfg env s).1 hin
      have hle := reached_le _ _ hre
      have hstart : (vuIP_Task_loop cfg env s).2.arp_timer.start =
          env.timer_get_tick (aging_point cfg env s) := by
        rw [hst]; rfl
      rw [hstart] at ih1
      simp only [if_pos hin, Option.toList, List.singleton_append]
      refine ⟨?_, ?_⟩
      · intro t ht
        simp only [List.mem_cons] at ht
        rcases ht with rfl | ht
        · exact hle
        · have := ih1 t ht
          omega
      · rw [List.pairwise_cons]
        exact ⟨fun b hb => ih1 b hb, ih2⟩
    · obtain ⟨hst, _⟩ := (arp_timer_step cfg env s).2 hin
      rw [hst] at ih1
      simp only [if_neg hin, Option.toList, List.nil_append]
      exact ⟨ih1, ih2⟩

/-- C11: with the timeouts modelled as the spec defines them and armed at task
start with 500 and 10000 ticks, in every execution of the loop (any number of
iterations, any behaviour of the collaborators, so in particular any
non-decreasing tick count) the ticks at which `uip_arp_timer` is called are
spaced by at least 10000 from one call to the next, and every call, the first
one included, comes at least 10000 ticks after the tick at which the aging
timeout was armed; both durations are kept throughout.  The two timeouts are
separate objects: in every iteration each of them changes only by its own
reset, to its own restart at the tick of that reset, whatever happens to the
other; and `uip_arp_timer` is entered in the globals in which the aging timeout
was just reset, so the tick of the call is the new start of the timeout. -/
theorem aging_calls_spaced {ε : Type} (cfg : Config) (env : Env ε)
    (init : Globals ε → Globals ε) (g : Globals ε) (n : Nat) :
    List.Chain' (fun a b => a + 10000 ≤ b)
        (arp_timer_call_ticks cfg env n (vuIP_Task_start env init g))
    ∧ (∀ t ∈ arp_timer_call_ticks cfg env n (vuIP_Task_start env init g),
        env.timer_get_tick g + 10000 ≤ t)
    ∧ (vuIP_Task_run cfg env n (vuIP_Task_start env init g)).arp_timer.count = 10000
    ∧ (vuIP_Task_run cfg env n (vuIP_Task_start env init g)).periodic_timer.count = 500
    ∧ (∀ s : TaskState ε,
        (Call.timer_reset_timeout TimerId.arp_timer ∉ (vuIP_Task_loop cfg env s).1 →
          (vuIP_Task_loop cfg env s).2.arp_timer = s.arp_timer)
        ∧ (Call.timer_reset_timeout TimerId.periodic_timer ∉ (vuIP_Task_loop cfg env s).1 →
          (vuIP_Task_loop cfg env s).2.periodic_timer = s.periodic_timer)
        ∧ (Call.timer_reset_timeout TimerId.periodic_timer ∈ (vuIP_Task_loop cfg env s).1 →
          (vuIP_Task_loop cfg env s).2.periodic_timer =
            timer_reset_timeout s.periodic_timer
              (env.timer_get_tick (after_read cfg env s)))
        ∧ (Call.timer_reset_timeout TimerId.arp_timer ∈ (vuIP_Task_loop cfg env s).1 →
          (vuIP_Task_loop cfg env s).2.arp_timer =
            timer_reset_timeout s.arp_timer (env.timer_get_tick (aging_point cfg env s)))
        ∧ (Call.uip_arp_timer ∈ (vuIP_Task_loop cfg env s).1 →
          (vuIP_Task_loop cfg env s).2.g = env.uip_arp_timer (aging_point cfg env s)
          ∧ (vuIP_Task_loop cfg env s).2.arp_timer.start =
              env.timer_get_tick (aging_point cfg env s))) := by
  have hsp := call_ticks_spaced cfg env n (vuIP_Task_start env init g)
  have hc := timer_counts_run cfg env n (vuIP_Task_start env init g)
  refine ⟨hsp.2.chain', hsp.1, hc.1, hc.2, ?_⟩
  intro s
  have ha := arp_timer_step cfg env s
  have hp := periodic_timer_step cfg env s
  refine ⟨?_, hp.2, hp.1, ?_, ?_⟩
  · intro hnot
    by_cases hin : Call.uip_arp_timer ∈ (vuIP_Task_loop cfg env s).1
    · exact absurd (ha.1 hin).2.2.2 hnot
    · exact (ha.2 hin).1
  · intro hrs
    by_cases hin : Call.uip_arp_timer ∈ (vuIP_Task_loop cfg env s).1
    · exact (ha.1 hin).2.1
    · exact absurd hrs (ha.2 hin).2
  · intro hin
    refine ⟨(ha.1 hin).2.2.1, ?_⟩
    rw [(ha.1 hin).2.1]
    rfl

/-- Witness of C11: a device whose every read takes 3000 ticks and never holds a
frame, one connection slot, the task started at tick 0: the first nine
iterations call `uip_arp_timer` at ticks 12000 and 24000. -/
theorem aging_calls_spaced_witness :
    arp_timer_call_ticks (demo_cfg 1 false 0) (ticking 3000) 9
        (vuIP_Task_start (ticking 3000) id
          { uip_len := 0, ext := ⟨0, 0, 0, 0, fun _ => 0, fun _ => 0⟩ }) = [12000, 24000]
    ∧ List.Chain' (fun a b => a + 10000 ≤ b)
        (arp_timer_call_ticks (demo_cfg 1 false 0) (ticking 3000) 9
          (vuIP_Task_start (ticking 3000) id
            { uip_len := 0, ext := ⟨0, 0, 0, 0, fun _ => 0, fun _ => 0⟩ })) :=
  ⟨by decide,
   (aging_calls_spaced (demo_cfg 1 false 0) (ticking 3000) id
      { uip_len := 0, ext := ⟨0, 0, 0, 0, fun _ => 0, fun _ => 0⟩ } 9).1⟩

end FreertosUip
